import Mathlib

/-!
# SphereVideo360: video frame loading and playback pacing

A shallow embedding of `Source/EntryPoint.cpp` (`load_frame` and the update
lambda registered in `main`) together with the properties of the frame reader
that the design document states about them.

Conventions of the embedding

* C `int`/`uint32_t` indices are natural numbers or integers without wrap
  around; the frames considered are those whose index arithmetic fits the C
  types (signed overflow is undefined behaviour in the source).
* A byte is a natural number; every byte the readout stores is either copied
  from the source plane or the literal `0xff`, so no byte arithmetic occurs.
* Memory reached through a pointer is a function from offsets to bytes.  The
  buffer behind `*data` is the function restricted to `[0, alloc_size)`;
  stores are recorded with their offsets, so a store past the allocation is
  visible in the model instead of being silently dropped.
-/

namespace SphereVideo360

/-! ## Decoded frames and the pixel readout of `load_frame` -/

/-- The fields of FFmpeg's `AVFrame` that `load_frame` reads: the picture
dimensions, the stride of plane 0 (`linesize[0]`, a signed `int`) and the bytes
of plane 0 (`data[0]`), addressed by their offset from the plane pointer. -/
structure AVFrame where
  width : Nat
  height : Nat
  linesize0 : Int
  data0 : Int → Nat

/-- One executed assignment `(*data)[offset] = value`. -/
structure Store where
  offset : Nat
  value : Nat
  deriving DecidableEq, Repr

/-- The body of the inner loop of `load_frame` (lines 397-401) for the pixel
`(x, y)`: five assignments, in source order. -/
def pixel_stores (f : AVFrame) (y x : Nat) : List Store :=
  [ ⟨(y * f.width * 4) + x * 4,     f.data0 ((y : Int) * f.linesize0 + (x : Int))⟩,
    ⟨(y * f.width * 4) + x * 4 + 1, f.data0 ((y : Int) * f.linesize0 + (x : Int))⟩,
    ⟨(y * f.width * 4) + x * 4 + 2, f.data0 ((y : Int) * f.linesize0 + (x : Int))⟩,
    ⟨(y * f.width * 4) + x * 4 + 3, f.data0 ((y : Int) * f.linesize0 + (x : Int))⟩,
    ⟨(y * f.width * 4) + x * 4 + 4, 0xff⟩ ]

/-- The inner loop `for(int x = 0; x < av_frame->width; x++)` for row `y`. -/
def row_stores (f : AVFrame) (y : Nat) : List Store :=
  (List.range f.width).flatMap (pixel_stores f y)

/-- The outer loop `for(int y = 0; y < av_frame->height; y++)`: every
assignment the pixel readout executes, in execution order. -/
def readout_stores (f : AVFrame) : List Store :=
  (List.range f.height).flatMap (row_stores f)

/-- Effect of one assignment on the memory behind `*data`. -/
def store_byte (mem : Nat → Nat) (s : Store) : Nat → Nat :=
  fun o => if o = s.offset then s.value else mem o

/-- Effect of a sequence of assignments, executed left to right. -/
def run_stores (mem : Nat → Nat) (l : List Store) : Nat → Nat :=
  l.foldl store_byte mem

/-- Number of bytes of `new uint8_t[av_frame->width * av_frame->height * 4]`
(line 392). -/
def alloc_size (f : AVFrame) : Nat :=
  f.width * f.height * 4

/-- The memory behind `*data` after the readout loops, starting from the
(uninitialised) contents `init` of the fresh allocation. -/
def pixel_readout (f : AVFrame) (init : Nat → Nat) : Nat → Nat :=
  run_stores init (readout_stores f)

/-- The offsets the readout assigns to, in execution order. -/
def readout_offsets (f : AVFrame) : List Nat :=
  (readout_stores f).map Store.offset


/-! ## Stream selection and the decode loop of `load_frame` -/

/-- FFmpeg's `AVMediaType`. -/
inductive AVMediaType
  | unknown
  | video
  | audio
  | data
  | subtitle
  | attachment
  deriving DecidableEq, Repr

/-- What `load_frame` looks at in `av_format_cxt->streams[i]`: whether
`avcodec_find_decoder(codecpar->codec_id)` finds a decoder, the media type and
the picture dimensions of `codecpar` (non-negative in every container FFmpeg
opens). -/
structure AVStream where
  has_decoder : Bool
  codec_type : AVMediaType
  width : Nat
  height : Nat
  deriving DecidableEq, Repr

/-- The variables the stream scan assigns: `video_stream_index` and the out
parameters `*width`, `*height`. -/
structure ScanState where
  video_stream_index : Int
  width : Nat
  height : Nat
  deriving DecidableEq, Repr

/-- The loop of lines 322-337 from index `i` on; the list holds
`streams[i], streams[i+1], ...`.  A stream without decoder is skipped
(`continue`); the first decodable video stream is recorded and ends the loop
(`break`). -/
def scan_streams : List AVStream → Nat → ScanState → ScanState
  | [], _, s => s
  | st :: rest, i, s =>
    if !st.has_decoder then scan_streams rest (i + 1) s
    else if st.codec_type = AVMediaType.video then
      { video_stream_index := (i : Int), width := st.width, height := st.height }
    else scan_streams rest (i + 1) s

/-- The test of the scan: decodable and of video media type. -/
def is_video_stream (st : AVStream) : Bool :=
  st.has_decoder && decide (st.codec_type = AVMediaType.video)

/-- A packet as `av_read_frame` delivers it: the stream it belongs to and an
identifier of its contents. -/
structure AVPacket where
  stream_index : Int
  payload : Nat
  deriving DecidableEq, Repr

/-- The decoder behind `avcodec_send_packet` / `avcodec_receive_frame`, an
external collaborator: any state machine over a state type `σ`.  Both calls
return the C response code; `receive_frame` also returns the contents of the
`AVFrame` it was handed. -/
structure Decoder (σ : Type) where
  send_packet : σ → AVPacket → Int × σ
  receive_frame : σ → AVFrame → Int × AVFrame × σ

/-- Value of `AVERROR(EAGAIN)`. -/
def AVERROR_EAGAIN : Int := -11

/-- Value of `AVERROR_EOF`. -/
def AVERROR_EOF : Int := -541478725

/-- A call `load_frame` makes to the decoder, with the response it got. -/
inductive DecoderCall
  | send (p : AVPacket) (response : Int)
  | receive (response : Int)
  deriving DecidableEq, Repr

/-- State of the decode loop: decoder state, contents of `av_frame`, and the
decoder calls made so far. -/
structure LoopState (σ : Type) where
  dec : σ
  frame : AVFrame
  calls : List DecoderCall

/-- The loop of lines 373-390 over the packets `av_read_frame` delivers before
it reports a negative value.  The Boolean is `false` when the loop was left
through one of its `return false` statements. -/
def decode_loop {σ : Type} (d : Decoder σ) (vsi : Int) :
    List AVPacket → LoopState σ → Bool × LoopState σ
  | [], s => (true, s)
  | p :: ps, s =>
    if p.stream_index ≠ vsi then decode_loop d vsi ps s
    else
      let r := d.send_packet s.dec p
      let s1 : LoopState σ :=
        { dec := r.2, frame := s.frame, calls := s.calls ++ [DecoderCall.send p r.1] }
      if r.1 < 0 then (false, s1)
      else
        let q := d.receive_frame s1.dec s1.frame
        let s2 : LoopState σ :=
          { dec := q.2.2, frame := q.2.1, calls := s1.calls ++ [DecoderCall.receive q.1] }
        if q.1 = AVERROR_EAGAIN ∨ q.1 = AVERROR_EOF then decode_loop d vsi ps s2
        else if q.1 < 0 then (false, s2)
        else decode_loop d vsi ps s2

/-- Everything outside `load_frame` that determines one call of it: the
outcome of each library call, the streams of the container, the packets
`av_read_frame` delivers, the decoder, the values `*width`/`*height` hold on
entry and the contents of fresh heap memory. -/
structure LoadEnv (σ : Type) where
  format_alloc_ok : Bool
  open_input_ok : Bool
  streams : List AVStream
  codec_ctx_alloc_ok : Bool
  parameters_to_context_ok : Bool
  open2_ok : Bool
  frame_alloc_ok : Bool
  packet_alloc_ok : Bool
  packets : List AVPacket
  decoder : Decoder σ
  decoder_init : σ
  width0 : Nat
  height0 : Nat
  heap : Nat → Nat

/-- The buffer `load_frame` hands back through `*data`: the size of the
allocation, the memory behind the pointer and the offsets that were assigned. -/
structure OutputBuffer where
  size : Nat
  mem : Nat → Nat
  assigned : List Nat

/-- Observable outcome of `load_frame`: return value, `*width`, `*height`, the
decoder calls made, and `*data` when it was assigned. -/
structure LoadResult where
  ok : Bool
  width : Nat
  height : Nat
  calls : List DecoderCall
  data : Option OutputBuffer

/-- A frame as `av_frame_alloc` returns it: no picture. -/
def empty_frame : AVFrame :=
  { width := 0, height := 0, linesize0 := 0, data0 := fun _ => 0 }

/-- The function `load_frame` (lines 304-406). -/
def load_frame {σ : Type} (env : LoadEnv σ) : LoadResult :=
  if !env.format_alloc_ok then ⟨false, env.width0, env.height0, [], none⟩
  else if !env.open_input_ok then ⟨false, env.width0, env.height0, [], none⟩
  else
    let s := scan_streams env.streams 0 ⟨-1, env.width0, env.height0⟩
    if s.video_stream_index = -1 then ⟨false, s.width, s.height, [], none⟩
    else if !env.codec_ctx_alloc_ok then ⟨false, s.width, s.height, [], none⟩
    else if !env.parameters_to_context_ok then ⟨false, s.width, s.height, [], none⟩
    else if !env.open2_ok then ⟨false, s.width, s.height, [], none⟩
    else if !env.frame_alloc_ok then ⟨false, s.width, s.height, [], none⟩
    else if !env.packet_alloc_ok then ⟨false, s.width, s.height, [], none⟩
    else
      let r := decode_loop env.decoder s.video_stream_index env.packets
        { dec := env.decoder_init, frame := empty_frame, calls := [] }
      if !r.1 then ⟨false, s.width, s.height, r.2.calls, none⟩
      else
        ⟨true, s.width, s.height, r.2.calls,
          some { size := alloc_size r.2.frame,
                 mem := pixel_readout r.2.frame env.heap,
                 assigned := readout_offsets r.2.frame }⟩

/-! ## Double precision arithmetic

A finite `double` is a rational number.  An arithmetic operation of the source
on doubles is the exact operation followed by rounding to the nearest binary64
value, ties to even.  The exponent is not bounded in the model: for the
`int64_t` tick counts and `int` time-bases of the source every result lies
in binary64's normal range, and infinities and NaN do not arise for a non-zero
denominator. -/

/-- Rounding of a rational to the nearest integer, ties to the even one. -/
def round_half_even (q : ℚ) : ℤ :=
  if q - ⌊q⌋ < 1 / 2 then ⌊q⌋
  else if 1 / 2 < q - ⌊q⌋ then ⌊q⌋ + 1
  else if ⌊q⌋ % 2 = 0 then ⌊q⌋ else ⌊q⌋ + 1

/-- Rounding to binary64: the significand is scaled to 53 bits, rounded to an
integer (ties to even) and scaled back. -/
def to_double (x : ℚ) : ℚ :=
  if x = 0 then 0
  else round_half_even (x / 2 ^ (Int.log 2 |x| - 52)) * 2 ^ (Int.log 2 |x| - 52)

/-- Multiplication of doubles. -/
def dmul (a b : ℚ) : ℚ := to_double (a * b)

/-- Division of doubles. -/
def ddiv (a b : ℚ) : ℚ := to_double (a / b)

/-- Subtraction of doubles. -/
def dsub (a b : ℚ) : ℚ := to_double (a - b)

/-- The rational `x` is a binary64 value (exponent range aside): an integer of
magnitude below `2^53` times a power of two. -/
def is_double (x : ℚ) : Prop :=
  ∃ m k : ℤ, |m| < 2 ^ 53 ∧ x = (m : ℚ) * 2 ^ k

/-! ## The update tick: presentation time and pacing -/

/-- FFmpeg's `AVRational`, the type of `vr_state.time_base`. -/
structure AVRational where
  num : Int
  den : Int
  deriving DecidableEq, Repr

/-- Line 604: `pts * (double)time_base.num / (double)time_base.den`, evaluated
left to right in double precision; `pts` is converted to `double` first. -/
def pt_in_seconds (pts : Int) (tb : AVRational) : ℚ :=
  ddiv (dmul (to_double (pts : ℚ)) (to_double (tb.num : ℚ))) (to_double (tb.den : ℚ))

/-- GLFW's timer, an external collaborator.  `timer n` is the value, in
seconds, of the platform's monotonic timer at the `n`-th query, `queries`
counts the queries made so far and `offset` is the origin GLFW subtracts. -/
structure Clock where
  timer : Nat → ℚ
  queries : Nat
  offset : ℚ

/-- Behaviour of `glfwSetTime(t)`: the origin is moved so that the clock reads
`t` now. -/
def glfwSetTime (t : ℚ) (c : Clock) : Clock :=
  { timer := c.timer, queries := c.queries + 1, offset := c.timer c.queries - t }

/-- Behaviour of `glfwGetTime()`: timer value minus origin. -/
def glfwGetTime (c : Clock) : ℚ × Clock :=
  (c.timer c.queries - c.offset,
    { timer := c.timer, queries := c.queries + 1, offset := c.offset })

/-- What an update tick does towards the outside. -/
inductive TickEvent
  | read_failed
  | set_time (t : ℚ)
  | wait (duration : ℚ)
  | present (pts : Int)
  deriving DecidableEq

/-- State that survives between update ticks: the function-local static
`first_frame`, the clock, and the log of events. -/
structure TickState where
  first_frame : Bool
  clock : Clock
  events : List TickEvent

/-- Lines 605-607: `while (pt_in_seconds > glfwGetTime())
glfwWaitEventsTimeout(pt_in_seconds - glfwGetTime());` with at most `fuel`
evaluations of the loop condition.  The Boolean tells whether the loop was
left. -/
def pace (target : ℚ) : Nat → TickState → Bool × TickState
  | 0, s => (false, s)
  | fuel + 1, s =>
    if target > (glfwGetTime s.clock).1 then
      pace target fuel
        { first_frame := s.first_frame,
          clock := (glfwGetTime (glfwGetTime s.clock).2).2,
          events := s.events ++
            [TickEvent.wait (dsub target (glfwGetTime (glfwGetTime s.clock).2).1)] }
    else
      (true, { first_frame := s.first_frame, clock := (glfwGetTime s.clock).2,
               events := s.events })

/-- Lines 598-602: the clock is reset when `first_frame` is set, and the flag
is cleared. -/
def reset_clock_once (s : TickState) : TickState :=
  if s.first_frame then
    { first_frame := false, clock := glfwSetTime 0 s.clock,
      events := s.events ++ [TickEvent.set_time 0] }
  else s

/-- Lines 593-596: the outcome `(ok, pts)` of `video_reader_read_frame` is an
input of the tick; a failed read is reported and the tick goes on. -/
def report_read (ok : Bool) (s : TickState) : TickState :=
  if ok then s
  else { first_frame := s.first_frame, clock := s.clock,
         events := s.events ++ [TickEvent.read_failed] }

/-- Lines 609-610 and the drawing after them: once the pacing loop is left the
frame read in this tick is uploaded and drawn. -/
def present_if_paced (pts : Int) (r : Bool × TickState) : Bool × TickState :=
  if r.1 then
    (true, { first_frame := r.2.first_frame, clock := r.2.clock,
             events := r.2.events ++ [TickEvent.present pts] })
  else r

/-- The update lambda up to the upload of the frame (lines 593-610).  The
Boolean tells whether the pacing loop was left within `fuel` evaluations of
its condition; only then is the frame presented. -/
def update_tick (fuel : Nat) (tb : AVRational) (inp : Bool × Int) (s : TickState) :
    Bool × TickState :=
  present_if_paced inp.2
    (pace (pt_in_seconds inp.2 tb) fuel (reset_clock_once (report_read inp.1 s)))

/-- Successive update ticks (`app.Tick()` in the main loop), one per read
outcome; a tick whose pacing loop is not left keeps the ticks after it from
running. -/
def run_ticks (fuel : Nat) (tb : AVRational) : List (Bool × Int) → TickState → Bool × TickState
  | [], s => (true, s)
  | inp :: rest, s =>
    if (update_tick fuel tb inp s).1 then run_ticks fuel tb rest (update_tick fuel tb inp s).2
    else update_tick fuel tb inp s

/-- State before the first update tick. -/
def initial_tick_state (c : Clock) : TickState :=
  { first_frame := true, clock := c, events := [] }

/-- Number of clock resets in an event log. -/
def count_set_time (l : List TickEvent) : Nat :=
  (l.filter (fun e => match e with | TickEvent.set_time _ => true | _ => false)).length

/-- The waits in an event log, in order. -/
def waits (l : List TickEvent) : List ℚ :=
  l.filterMap (fun e => match e with | TickEvent.wait d => some d | _ => none)

/-- The clock reading `glfwGetTime()` returns at the `n`-th query from now. -/
def reading_at (c : Clock) (n : Nat) : ℚ :=
  c.timer (c.queries + n) - c.offset

/-! ## Auxiliary description of the memory during the readout -/

/-- Source byte of the pixel with row-major number `p`. -/
def src_at (f : AVFrame) (p : Nat) : Nat :=
  f.data0 (((p / f.width : Nat) : Int) * f.linesize0 + ((p % f.width : Nat) : Int))

/-- Contents of the memory behind `*data` once the first `P` pixels (row-major)
have been processed. -/
def readout_after (f : AVFrame) (init : Nat → Nat) (P : Nat) : Nat → Nat :=
  fun o =>
    if o < 4 * P then src_at f (o / 4)
    else if o = 4 * P ∧ 0 < P then 0xff
    else init o

/-- The tick count `pts` and the time-base `tb` are such that no operation of
line 604 rounds: `pts`, the numerator, the denominator, the product
`pts * num` and the quotient `pts * num / den` are binary64 values. -/
def exact_time (pts : Int) (tb : AVRational) : Prop :=
  is_double (pts : ℚ) ∧ is_double (tb.num : ℚ) ∧ is_double (tb.den : ℚ) ∧
    is_double ((pts : ℚ) * (tb.num : ℚ)) ∧
    is_double ((pts : ℚ) * (tb.num : ℚ) / (tb.den : ℚ))

/-! ## Concrete inputs used in the examples -/

/-- A 4x4 single-channel frame with stride 8 (four padding bytes per row); the
byte at offset `o` of plane 0 is `16 + o`. -/
def frame_4x4 : AVFrame :=
  { width := 4, height := 4, linesize0 := 8, data0 := fun o => 16 + o.toNat }

/-- The picture of `frame_4x4` stored without row padding (stride 4). -/
def frame_4x4_packed : AVFrame :=
  { width := 4, height := 4, linesize0 := 4,
    data0 := fun o => 16 + (o.toNat / 4) * 8 + o.toNat % 4 }

/-- A frame of a single pixel of intensity 7. -/
def frame_1x1 : AVFrame :=
  { width := 1, height := 1, linesize0 := 1, data0 := fun _ => 7 }

/-- A container with an audio stream, a video stream without decoder and two
decodable video streams. -/
def streams_mixed : List AVStream :=
  [ ⟨true, AVMediaType.audio, 0, 0⟩, ⟨false, AVMediaType.video, 1920, 1080⟩,
    ⟨true, AVMediaType.video, 640, 480⟩, ⟨true, AVMediaType.video, 320, 240⟩ ]

/-- A container without any video stream. -/
def streams_no_video : List AVStream :=
  [ ⟨true, AVMediaType.audio, 0, 0⟩, ⟨true, AVMediaType.subtitle, 0, 0⟩ ]

/-- A decoder that accepts every packet and yields one 1x1 frame per packet;
its state counts the packets it was sent. -/
def counting_decoder : Decoder Nat :=
  { send_packet := fun n _ => (0, n + 1),
    receive_frame := fun n _ => (0, frame_1x1, n) }

/-- An environment in which every library call succeeds. -/
def env_of (streams : List AVStream) (packets : List AVPacket) : LoadEnv Nat :=
  { format_alloc_ok := true, open_input_ok := true, streams := streams,
    codec_ctx_alloc_ok := true, parameters_to_context_ok := true, open2_ok := true,
    frame_alloc_ok := true, packet_alloc_ok := true, packets := packets,
    decoder := counting_decoder, decoder_init := 0, width0 := 0, height0 := 0,
    heap := fun _ => 0 }

/-- The time-base 1/30 of a 30 frames-per-second stream. -/
def tb_30fps : AVRational := { num := 1, den := 30 }

/-- A clock whose timer stands at 3/2 for two queries and at 2 afterwards. -/
def clock_at_1_5 : Clock :=
  { timer := fun n => if n < 2 then 3 / 2 else 2, queries := 0, offset := 0 }

/-- A running clock: its timer reads 3/2 at the first query, 7/4 at the second
and 2 from the third query on. -/
def clock_moving : Clock :=
  { timer := fun n => if n = 0 then 3 / 2 else if n = 1 then 7 / 4 else 2,
    queries := 0, offset := 0 }

/-- A clock whose timer advances by 1/1024 s between consecutive queries. -/
def clock_ms : Clock :=
  { timer := fun n => (n : ℚ) / 1024, queries := 0, offset := 0 }

/-- A clock whose timer starts at 5 s and advances by 1/1024 s from one query to
the next, except that one more second passes between the third and the fourth
query (the time spent in a wait). -/
def clock_first_tick : Clock :=
  { timer := fun n => if n < 3 then 5 + (n : ℚ) / 1024 else 6 + (n : ℚ) / 1024,
    queries := 0, offset := 0 }

/-! ## Decoders used to exercise the decode loop -/

/-- Number of `avcodec_send_packet` calls in a call log. -/
def sends (l : List DecoderCall) : Nat :=
  (l.filter (fun c => match c with | DecoderCall.send _ _ => true | _ => false)).length

/-- Number of `avcodec_receive_frame` calls in a call log. -/
def receives (l : List DecoderCall) : Nat :=
  (l.filter (fun c => match c with | DecoderCall.receive _ => true | _ => false)).length

/-- Number of `avcodec_receive_frame` calls in a call log that delivered a
frame (non-negative response). -/
def frames_received (l : List DecoderCall) : Nat :=
  (l.filter (fun c => match c with
    | DecoderCall.receive r => decide (0 ≤ r)
    | _ => false)).length

/-- Number of packets of the stream `vsi` in a packet sequence. -/
def video_packets (vsi : Int) (pkts : List AVPacket) : Nat :=
  (pkts.filter (fun p => decide (p.stream_index = vsi))).length

/-- A decoder that makes `k` frames available after every packet.  Its state
is the number of decoded frames waiting to be received; receiving with none
waiting reports `AVERROR(EAGAIN)` and leaves the frame as it is. -/
def queue_decoder (k : Nat) : Decoder Nat :=
  { send_packet := fun n _ => (0, n + k),
    receive_frame := fun n f =>
      if n = 0 then (AVERROR_EAGAIN, f, 0) else (0, frame_1x1, n - 1) }

/-- A decoder whose responses depend on the payload of the last packet: it
rejects payload 0, has no frame yet after payload 1 (`AVERROR(EAGAIN)`), fails
to decode after payload 2 and delivers a frame otherwise.  Its state is the
payload of the last accepted packet. -/
def picky_decoder : Decoder Nat :=
  { send_packet := fun n p => if p.payload = 0 then (-1094995529, n) else (0, p.payload),
    receive_frame := fun n f =>
      if n = 1 then (AVERROR_EAGAIN, f, n)
      else if n = 2 then (-5, f, n)
      else (0, frame_1x1, n) }

/-! ## `Application` (`Source/Private/Application.cpp`) -/

/-- What an `Application` does towards GLFW, the process and its callbacks. -/
inductive AppEvent
  | window_hints
  | create_window
  | invoke (fn : Nat)
  | swap_buffers
  | poll_events
  | destroy_window
  | glfw_terminate
  | exit_failure
  deriving DecidableEq, Repr

/-- The members of `Application` that its methods use.  A `DefaultCallback` is
either empty (`none`) or a callable, identified by a number.  `exited` records
that `exit(EXIT_FAILURE)` was reached, `events` what the object has done. -/
structure Application where
  m_on_start_callback : Option Nat
  m_on_update_callback : Option Nat
  m_on_terminate_callback : Option Nat
  exited : Bool
  events : List AppEvent
  deriving DecidableEq, Repr

/-- The constructor (lines 3-18); `glfw_init_ok` is the outcome of
`glfwInit()`. -/
def Application.construct (glfw_init_ok : Bool) : Application :=
  if glfw_init_ok then
    { m_on_start_callback := none, m_on_update_callback := none,
      m_on_terminate_callback := none, exited := false,
      events := [AppEvent.window_hints] }
  else
    { m_on_start_callback := none, m_on_update_callback := none,
      m_on_terminate_callback := none, exited := true,
      events := [AppEvent.exit_failure] }

/-- The destructor (lines 20-25): `glfwDestroyWindow` and `glfwTerminate`. -/
def Application.destruct (a : Application) : Application :=
  { a with events := a.events ++ [AppEvent.destroy_window, AppEvent.glfw_terminate] }

/-- `Application::OnStart` (lines 103-106). -/
def Application.OnStart (fn : Option Nat) (a : Application) : Application :=
  { a with m_on_start_callback := fn }

/-- `Application::OnUpdate` (lines 107-110). -/
def Application.OnUpdate (fn : Option Nat) (a : Application) : Application :=
  { a with m_on_update_callback := fn }

/-- `Application::OnTerminate` (lines 111-114). -/
def Application.OnTerminate (fn : Option Nat) (a : Application) : Application :=
  { a with m_on_terminate_callback := fn }

/-- `Application::Init` (lines 54-90); `window_ok` and `glew_ok` are the
outcomes of `glfwCreateWindow` and `glewInit`. -/
def Application.Init (window_ok glew_ok : Bool) (a : Application) : Application :=
  if !window_ok then
    { a with exited := true,
             events := a.events ++ [AppEvent.glfw_terminate, AppEvent.exit_failure] }
  else if !glew_ok then
    { a with exited := true,
             events := a.events ++ [AppEvent.create_window, AppEvent.destroy_window,
               AppEvent.glfw_terminate, AppEvent.exit_failure] }
  else
    match a.m_on_start_callback with
    | some fn => { a with events := a.events ++ [AppEvent.create_window, AppEvent.invoke fn] }
    | none => { a with events := a.events ++ [AppEvent.create_window] }

/-- `Application::Tick` (lines 91-97). -/
def Application.Tick (a : Application) : Application :=
  match a.m_on_update_callback with
  | some fn => { a with events := a.events ++ [AppEvent.invoke fn, AppEvent.swap_buffers] }
  | none => { a with events := a.events ++ [AppEvent.swap_buffers] }

/-- `Application::Poll` (lines 98-101). -/
def Application.Poll (a : Application) : Application :=
  { a with events := a.events ++ [AppEvent.poll_events] }

/-- A call of a public method of `Application` between construction and
destruction. -/
inductive AppOp
  | OnStart (fn : Option Nat)
  | OnUpdate (fn : Option Nat)
  | OnTerminate (fn : Option Nat)
  | Init (window_ok glew_ok : Bool)
  | Tick
  | Poll
  deriving DecidableEq, Repr

/-- One method call; nothing runs once the process has exited. -/
def Application.apply (op : AppOp) (a : Application) : Application :=
  if a.exited then a
  else match op with
    | AppOp.OnStart fn => a.OnStart fn
    | AppOp.OnUpdate fn => a.OnUpdate fn
    | AppOp.OnTerminate fn => a.OnTerminate fn
    | AppOp.Init w g => a.Init w g
    | AppOp.Tick => a.Tick
    | AppOp.Poll => a.Poll

/-- The life of an `Application`: constructor, the method calls `ops` in
order, destructor (the last is run when the process has not exited). -/
def app_session (glfw_init_ok : Bool) (ops : List AppOp) : Application :=
  let a := ops.foldl (fun a op => a.apply op) (Application.construct glfw_init_ok)
  if a.exited then a else a.destruct

/-- Number of times the callable `fn` was called. -/
def invocations (fn : Nat) (l : List AppEvent) : Nat :=
  l.count (AppEvent.invoke fn)

/-- The method call registers the callable `fn` for start or for update. -/
def registers_for_start_or_update (fn : Nat) (op : AppOp) : Bool :=
  match op with
  | AppOp.OnStart g => decide (g = some fn)
  | AppOp.OnUpdate g => decide (g = some fn)
  | _ => false

/-! ## `generate_uvspehre` -/

/-- The indices pushed for one sector (lines 253-266), with the current values
of `k1` and `k2`. -/
def sector_indices (lat_count i k1 k2 : Nat) : List Nat :=
  (if i ≠ 0 then [k1, k2, k1 + 1] else []) ++
  (if i ≠ lat_count - 1 then [k1 + 1, k2, k2 + 1] else [])

/-- The inner loop `for(int j = 0; j < lon_count; ++j, ++k1, ++k2)` of stack
`i` with `n` sectors still to go. -/
def stack_indices (lat_count i : Nat) : Nat → Nat → Nat → List Nat
  | 0, _, _ => []
  | n + 1, k1, k2 =>
    sector_indices lat_count i k1 k2 ++ stack_indices lat_count i n (k1 + 1) (k2 + 1)

/-- The three vectors `generate_uvspehre` returns. -/
structure SphereMesh (V T : Type) where
  indices : List Nat
  vertices : List V
  tex_coords : List T

/-- The function `generate_uvspehre` (lines 204-271).  The single precision
computations of a vertex position and of a texture coordinate from the loop
counters `i` and `j` (lines 221-236) are the parameters `vertex` and
`tex_coord`. -/
def generate_uvspehre {V T : Type} (vertex : Nat → Nat → V) (tex_coord : Nat → Nat → T)
    (lon_count lat_count : Nat) : SphereMesh V T :=
  { indices := (List.range lat_count).flatMap (fun i =>
      stack_indices lat_count i lon_count (i * (lon_count + 1))
        (i * (lon_count + 1) + lon_count + 1)),
    vertices := (List.range (lat_count + 1)).flatMap (fun i =>
      (List.range (lon_count + 1)).map (fun j => vertex i j)),
    tex_coords := (List.range (lat_count + 1)).flatMap (fun i =>
      (List.range (lon_count + 1)).map (fun j => tex_coord i j)) }

/-! ## Mouse dragging (`mouse_drag_rotate` and the GLFW callbacks)

A `float` is a rational number, as a `double` is; a single precision operation
is the exact operation followed by rounding to the nearest binary32 value, ties
to even (exponent range aside). -/

/-- Rounding to binary32: 24 bits of significand. -/
def to_float (x : ℚ) : ℚ :=
  if x = 0 then 0
  else round_half_even (x / 2 ^ (Int.log 2 |x| - 23)) * 2 ^ (Int.log 2 |x| - 23)

/-- Subtraction of floats. -/
def fsub (a b : ℚ) : ℚ := to_float (a - b)

/-- The rational `x` is a binary32 value (exponent range aside). -/
def is_float (x : ℚ) : Prop :=
  ∃ m k : ℤ, |m| < 2 ^ 24 ∧ x = (m : ℚ) * 2 ^ k

/-- A `glm::vec2`. -/
structure Vec2 where
  x : ℚ
  y : ℚ
  deriving DecidableEq

/-- `glm::vec2(0.0f)`. -/
def Vec2.zero : Vec2 := { x := 0, y := 0 }

/-- Difference of two `glm::vec2`, component by component. -/
def Vec2.sub (a b : Vec2) : Vec2 := { x := fsub a.x b.x, y := fsub a.y b.y }

/-- Value of `GLFW_RELEASE`. -/
def GLFW_RELEASE : Int := 0

/-- Value of `GLFW_PRESS`. -/
def GLFW_PRESS : Int := 1

/-- The globals of lines 412-445 that the mouse code reads and writes. -/
structure MouseState where
  mouse_x_pos : ℚ
  mouse_y_pos : ℚ
  mouse_pressed : Bool
  mouse_released : Bool
  diff : Vec2
  prev_mouse_pos : Vec2
  is_initial_press : Bool

/-- The globals as initialised at program start. -/
def initial_mouse_state : MouseState :=
  { mouse_x_pos := 0, mouse_y_pos := 0, mouse_pressed := false, mouse_released := false,
    diff := Vec2.zero, prev_mouse_pos := Vec2.zero, is_initial_press := true }

/-- `mouse_cursor_callback` (lines 423-427). -/
def mouse_cursor_callback (xpos ypos : ℚ) (s : MouseState) : MouseState :=
  { s with mouse_x_pos := xpos, mouse_y_pos := ypos }

/-- `mouse_button_callback` (lines 428-440). -/
def mouse_button_callback (_button action _mods : Int) (s : MouseState) : MouseState :=
  if action = GLFW_PRESS then { s with mouse_pressed := true, mouse_released := false }
  else if action = GLFW_RELEASE then { s with mouse_pressed := false, mouse_released := true }
  else s

/-- The local `glm::vec2 current_pos(mouse_x_pos, mouse_y_pos)` of line 449:
the cursor position converted to `float`. -/
def current_pos (s : MouseState) : Vec2 :=
  { x := to_float s.mouse_x_pos, y := to_float s.mouse_y_pos }

/-- `mouse_drag_rotate` (lines 447-470). -/
def mouse_drag_rotate (s : MouseState) : MouseState :=
  if s.mouse_pressed then
    let s1 : MouseState :=
      if s.is_initial_press then
        { s with is_initial_press := false, prev_mouse_pos := current_pos s }
      else s
    { s1 with diff := (current_pos s).sub s1.prev_mouse_pos }
  else if s.mouse_released then
    { s with is_initial_press := true, diff := Vec2.zero, prev_mouse_pos := Vec2.zero }
  else s

/-- What happens to the mouse globals: a cursor callback, a button callback or
a call of `mouse_drag_rotate`. -/
inductive MouseEvent
  | cursor (xpos ypos : ℚ)
  | button (button action mods : Int)
  | drag_rotate
  deriving DecidableEq

/-- Effect of one event on the globals. -/
def mouse_step (e : MouseEvent) (s : MouseState) : MouseState :=
  match e with
  | MouseEvent.cursor x y => mouse_cursor_callback x y s
  | MouseEvent.button b a m => mouse_button_callback b a m s
  | MouseEvent.drag_rotate => mouse_drag_rotate s

/-- Effect of a sequence of events, in order. -/
def run_mouse : List MouseEvent → MouseState → MouseState
  | [], s => s
  | e :: es, s => run_mouse es (mouse_step e s)

/-- The drag as it is meant to behave: the cursor position, whether the
button is held or was released, the cursor position sampled by the first
`mouse_drag_rotate` call of the current press (`anchor`, `none` before that
call) and `diff`. -/
structure DragSpec where
  x : ℚ
  y : ℚ
  held : Bool
  released : Bool
  anchor : Option Vec2
  diff : Vec2

/-- The intended drag at program start. -/
def initial_drag_spec : DragSpec :=
  { x := 0, y := 0, held := false, released := false, anchor := none, diff := Vec2.zero }

/-- The intended effect of one event: a press starts a drag without anchor; the
first `mouse_drag_rotate` call of the press samples the anchor, and while the
button is held `diff` is the current position minus the anchor; a release ends
the drag, and a `mouse_drag_rotate` call in the released state sets `diff` to
zero. -/
def drag_spec_step (e : MouseEvent) (p : DragSpec) : DragSpec :=
  match e with
  | MouseEvent.cursor x y => { p with x := x, y := y }
  | MouseEvent.button _ action _ =>
    if action = GLFW_PRESS then
      if p.held then p else { p with held := true, released := false, anchor := none }
    else if action = GLFW_RELEASE then
      { p with held := false, released := true, anchor := none }
    else p
  | MouseEvent.drag_rotate =>
    if p.held then
      { p with
        anchor := some (p.anchor.getD { x := to_float p.x, y := to_float p.y }),
        diff := Vec2.sub { x := to_float p.x, y := to_float p.y }
          (p.anchor.getD { x := to_float p.x, y := to_float p.y }) }
    else if p.released then { p with diff := Vec2.zero }
    else p

/-- The intended effect of a sequence of events. -/
def run_drag_spec : List MouseEvent → DragSpec → DragSpec
  | [], p => p
  | e :: es, p => run_drag_spec es (drag_spec_step e p)

/-- Whether a release is still waiting for a `mouse_drag_rotate` call after
the event `e`, given whether one was waiting before. -/
def release_pending (b : Bool) (e : MouseEvent) : Bool :=
  match e with
  | MouseEvent.cursor _ _ => b
  | MouseEvent.button _ action _ =>
    if action = GLFW_PRESS then false else if action = GLFW_RELEASE then true else b
  | MouseEvent.drag_rotate => false

/-- The event `e` is not a press that arrives while a release is still waiting
for a `mouse_drag_rotate` call (`b`). -/
def press_allowed (b : Bool) (e : MouseEvent) : Bool :=
  match e with
  | MouseEvent.button _ action _ => !(decide (action = GLFW_PRESS) && b)
  | _ => true

/-- Every release in the sequence is followed by a `mouse_drag_rotate` call
before the next press; `b` tells whether a release is waiting at the start. -/
def releases_observed : Bool → List MouseEvent → Bool
  | _, [] => true
  | b, e :: es => press_allowed b e && releases_observed (release_pending b e) es

/-- Relation between the globals and the intended drag that every event of a
sequence with observed releases preserves; `b` tells whether a release is
waiting for a `mouse_drag_rotate` call. -/
def drag_inv (b : Bool) (c : MouseState) (p : DragSpec) : Prop :=
  c.mouse_x_pos = p.x ∧ c.mouse_y_pos = p.y ∧ c.mouse_pressed = p.held ∧
  c.mouse_released = p.released ∧ c.diff = p.diff ∧
  (p.held = true → p.released = false) ∧
  (b = true → p.held = false ∧ p.released = true) ∧
  (∀ a, p.anchor = some a → p.held = true ∧ c.is_initial_press = false ∧
    c.prev_mouse_pos = a) ∧
  (p.anchor = none → c.is_initial_press = true ∨ b = true)

/-- A quick click between two frames: press, first `mouse_drag_rotate` call,
the cursor moves to (10, 0), release and press again, `mouse_drag_rotate`. -/
def quick_click : List MouseEvent :=
  [ MouseEvent.button 0 GLFW_PRESS 0, MouseEvent.drag_rotate, MouseEvent.cursor 10 0,
    MouseEvent.button 0 GLFW_RELEASE 0, MouseEvent.button 0 GLFW_PRESS 0,
    MouseEvent.drag_rotate ]

/-- A drag, a release seen by `mouse_drag_rotate`, and a second drag. -/
def two_drags : List MouseEvent :=
  [ MouseEvent.button 0 GLFW_PRESS 0, MouseEvent.drag_rotate, MouseEvent.cursor 10 0,
    MouseEvent.drag_rotate, MouseEvent.button 0 GLFW_RELEASE 0, MouseEvent.drag_rotate,
    MouseEvent.button 0 GLFW_PRESS 0, MouseEvent.drag_rotate ]

/-! # Properties -/

theorem src_at_pixel (f : AVFrame) (y x : Nat) (hx : x < f.width) :
    src_at f (y * f.width + x) = f.data0 ((y : Int) * f.linesize0 + (x : Int)) := by
  have hw : 0 < f.width := by omega
  have h1 : (y * f.width + x) / f.width = y := by
    rw [Nat.add_comm, Nat.add_mul_div_right _ _ hw, Nat.div_eq_of_lt hx, Nat.zero_add]
  have h2 : (y * f.width + x) % f.width = x := by
    rw [Nat.add_comm, Nat.add_mul_mod_self_right, Nat.mod_eq_of_lt hx]
  simp only [src_at, h1, h2]

theorem readout_after_zero (f : AVFrame) (init : Nat → Nat) :
    readout_after f init 0 = init := by
  funext o
  simp [readout_after]

theorem run_stores_append (mem : Nat → Nat) (l₁ l₂ : List Store) :
    run_stores mem (l₁ ++ l₂) = run_stores (run_stores mem l₁) l₂ := by
  simp [run_stores, List.foldl_append]

theorem readout_after_pixel (f : AVFrame) (init : Nat → Nat) (y x : Nat)
    (hx : x < f.width) :
    run_stores (readout_after f init (y * f.width + x)) (pixel_stores f y x)
      = readout_after f init (y * f.width + x + 1) := by
  funext o
  have hsrc := src_at_pixel f y x hx
  have hdiv : ∀ c, c < 4 → (4 * (y * f.width + x) + c) / 4 = y * f.width + x := by
    intro c hc; omega
  simp only [run_stores, pixel_stores, List.foldl_cons, List.foldl_nil, store_byte,
    readout_after]
  by_cases h4 : o = y * f.width * 4 + x * 4 + 4
  · subst h4
    rw [if_pos rfl]
    rw [if_neg (by omega), if_pos ⟨by omega, by omega⟩]
  · rw [if_neg h4]
    by_cases h3 : o = y * f.width * 4 + x * 4 + 3
    · subst h3
      rw [if_pos rfl, if_pos (by omega)]
      have := hdiv 3 (by omega)
      rw [show y * f.width * 4 + x * 4 + 3 = 4 * (y * f.width + x) + 3 by ring, this, hsrc]
    · rw [if_neg h3]
      by_cases h2 : o = y * f.width * 4 + x * 4 + 2
      · subst h2
        rw [if_pos rfl, if_pos (by omega)]
        have := hdiv 2 (by omega)
        rw [show y * f.width * 4 + x * 4 + 2 = 4 * (y * f.width + x) + 2 by ring, this, hsrc]
      · rw [if_neg h2]
        by_cases h1 : o = y * f.width * 4 + x * 4 + 1
        · subst h1
          rw [if_pos rfl, if_pos (by omega)]
          have := hdiv 1 (by omega)
          rw [show y * f.width * 4 + x * 4 + 1 = 4 * (y * f.width + x) + 1 by ring, this, hsrc]
        · rw [if_neg h1]
          by_cases h0 : o = y * f.width * 4 + x * 4
          · subst h0
            rw [if_pos rfl, if_pos (by omega)]
            have := hdiv 0 (by omega)
            rw [show y * f.width * 4 + x * 4 = 4 * (y * f.width + x) + 0 by ring, this, hsrc]
          · rw [if_neg h0]
            by_cases hlt : o < 4 * (y * f.width + x)
            · rw [if_pos hlt, if_pos (by omega)]
            · rw [if_neg hlt, if_neg (by omega), if_neg (by omega), if_neg (by omega)]

theorem readout_after_row_prefix (f : AVFrame) (init : Nat → Nat) (y : Nat) :
    ∀ m, m ≤ f.width →
      run_stores (readout_after f init (y * f.width))
          ((List.range m).flatMap (pixel_stores f y))
        = readout_after f init (y * f.width + m) := by
  intro m
  induction m with
  | zero => intro _; simp [run_stores]
  | succ m ih =>
    intro hm
    rw [List.range_succ, List.flatMap_append, run_stores_append, ih (by omega)]
    simp only [List.flatMap_cons, List.flatMap_nil, List.append_nil]
    rw [readout_after_pixel f init y m (by omega)]
    rfl

theorem readout_after_rows (f : AVFrame) (init : Nat → Nat) :
    ∀ n, run_stores init ((List.range n).flatMap (row_stores f))
        = readout_after f init (n * f.width) := by
  intro n
  induction n with
  | zero => simp [run_stores, readout_after_zero]
  | succ n ih =>
    rw [List.range_succ, List.flatMap_append, run_stores_append, ih]
    simp only [List.flatMap_cons, List.flatMap_nil, List.append_nil]
    rw [row_stores, readout_after_row_prefix f init n f.width (le_refl _)]
    rw [Nat.succ_mul]

/-- Closed form of the memory behind `*data` after the readout. -/
theorem pixel_readout_eq (f : AVFrame) (init : Nat → Nat) :
    pixel_readout f init = readout_after f init (f.height * f.width) := by
  rw [pixel_readout, readout_stores, readout_after_rows]

/-- Byte `c` (`c < 4`) of pixel `(x, y)` holds the source intensity of that
pixel once the readout is over. -/
theorem pixel_readout_channel (f : AVFrame) (init : Nat → Nat) (x y c : Nat)
    (hx : x < f.width) (hy : y < f.height) (hc : c < 4) :
    pixel_readout f init ((y * f.width + x) * 4 + c)
      = f.data0 ((y : Int) * f.linesize0 + (x : Int)) := by
  rw [pixel_readout_eq]
  have hp : y * f.width + x < f.height * f.width := by
    have : (y + 1) * f.width ≤ f.height * f.width := Nat.mul_le_mul_right _ hy
    nlinarith
  simp only [readout_after]
  rw [if_pos (by omega)]
  have : ((y * f.width + x) * 4 + c) / 4 = y * f.width + x := by omega
  rw [this, src_at_pixel f y x hx]


/-! ## The pixel readout -/

/-- The store with offset `alloc_size` is among the stores of every non-empty
frame: the fifth assignment of the last pixel. -/
theorem alloc_size_mem_readout_offsets (f : AVFrame) (hw : 1 ≤ f.width) (hh : 1 ≤ f.height) :
    alloc_size f ∈ readout_offsets f := by
  simp only [readout_offsets, readout_stores, row_stores, List.mem_map, List.mem_flatMap,
    List.mem_range]
  refine ⟨⟨(f.height - 1) * f.width * 4 + (f.width - 1) * 4 + 4, 0xff⟩,
    ⟨f.height - 1, by omega, f.width - 1, by omega, by simp [pixel_stores]⟩, ?_⟩
  obtain ⟨w, hw'⟩ : ∃ w, f.width = w + 1 := ⟨f.width - 1, by omega⟩
  obtain ⟨h, hh'⟩ : ∃ h, f.height = h + 1 := ⟨f.height - 1, by omega⟩
  simp only [alloc_size, hw', hh', Nat.add_sub_cancel]
  ring

/-- C1 (alpha is fully opaque), evaluated on the 4x4 frame with stride 8: after
the readout the alpha byte of pixel (0, 0), at offset 3, holds the source
intensity 16 of that pixel instead of 255, for any initial contents of the
buffer; the value 255 of the last pixel lands at offset 64, the first byte
behind the 64-byte buffer. -/
theorem C1_alpha_byte_holds_intensity (init : Nat → Nat) :
    pixel_readout frame_4x4 init ((0 * frame_4x4.width + 0) * 4 + 3) = 16 ∧
    pixel_readout frame_4x4 init ((0 * frame_4x4.width + 0) * 4 + 3) ≠ 255 ∧
    alloc_size frame_4x4 = 64 ∧
    pixel_readout frame_4x4 init 64 = 255 := by
  have h := pixel_readout_channel frame_4x4 init 0 0 3 (by decide) (by decide) (by decide)
  have h16 : pixel_readout frame_4x4 init ((0 * frame_4x4.width + 0) * 4 + 3) = 16 := by
    rw [h]; rfl
  refine ⟨h16, by rw [h16]; decide, rfl, ?_⟩
  rw [pixel_readout_eq]
  simp [readout_after, frame_4x4]

/-- C2 (intensity replicated into R, G, B; rows read at `row_index * stride`,
written packed): for a frame with `width >= 1`, `height >= 1` and stride at
least the width, after the readout the byte at offset `(y*width + x)*4 + c`,
`c` in {0, 1, 2}, equals the plane-0 byte at offset `y*stride + x`. -/
theorem C2_rgb_channels_equal_source (f : AVFrame) (init : Nat → Nat) (x y c : Nat)
    (_hw : 1 ≤ f.width) (_hh : 1 ≤ f.height) (_hs : (f.width : Int) ≤ f.linesize0)
    (hx : x < f.width) (hy : y < f.height) (hc : c < 3) :
    pixel_readout f init ((y * f.width + x) * 4 + c)
      = f.data0 ((y : Int) * f.linesize0 + (x : Int)) :=
  pixel_readout_channel f init x y c hx hy (by omega)

/-- Instance of C2: pixel (1, 2) of the 4x4 frame with stride 8, blue channel. -/
theorem C2_rgb_channels_equal_source_witness :
    (1 ≤ frame_4x4.width ∧ 1 ≤ frame_4x4.height ∧
      (frame_4x4.width : Int) ≤ frame_4x4.linesize0 ∧
      1 < frame_4x4.width ∧ 2 < frame_4x4.height ∧ 2 < 3) ∧
    pixel_readout frame_4x4 (fun _ => 0) ((2 * frame_4x4.width + 1) * 4 + 2)
      = frame_4x4.data0 ((2 : Nat) * frame_4x4.linesize0 + (1 : Nat)) :=
  ⟨by decide,
    C2_rgb_channels_equal_source frame_4x4 (fun _ => 0) 1 2 2
      (by decide) (by decide) (by decide) (by decide) (by decide) (by decide)⟩

/-- C3 (every assigned offset lies inside the allocation), evaluated on the
frame of one pixel: the allocation has 4 bytes and the readout assigns to the
offsets 0, 1, 2, 3 and 4, so the offset 4 is outside the buffer and the pixel
writes five bytes, not four. -/
theorem C3_readout_assigns_past_buffer :
    alloc_size frame_1x1 = 4 ∧
    readout_offsets frame_1x1 = [0, 1, 2, 3, 4] ∧
    ¬ (∀ o ∈ readout_offsets frame_1x1, o < alloc_size frame_1x1) := by
  refine ⟨rfl, rfl, ?_⟩
  intro h
  have h4 := h 4 (by decide)
  exact absurd h4 (by decide)

/-- C4 (the readout depends on the in-image pixels and the dimensions only):
two frames of equal width and height whose plane-0 bytes agree at
`y*stride + x` for every pixel give the same first `width*height*4` output
bytes, whatever their strides, padding bytes and the initial contents of the
two buffers; in particular the same frame read out twice gives identical
buffers. -/
theorem C4_readout_deterministic (f g : AVFrame) (init₁ init₂ : Nat → Nat)
    (hw : f.width = g.width) (hh : f.height = g.height)
    (hpix : ∀ y, y < f.height → ∀ x, x < f.width →
      f.data0 ((y : Int) * f.linesize0 + (x : Int))
        = g.data0 ((y : Int) * g.linesize0 + (x : Int)))
    (o : Nat) (ho : o < f.width * f.height * 4) :
    pixel_readout f init₁ o = pixel_readout g init₂ o := by
  have hwpos : 0 < f.width := by
    rcases Nat.eq_zero_or_pos f.width with h | h
    · rw [h] at ho; simp at ho
    · exact h
  have hp : o / 4 < f.height * f.width := by
    rw [Nat.div_lt_iff_lt_mul (by decide)]
    calc o < f.width * f.height * 4 := ho
      _ = f.height * f.width * 4 := by ring
  have hy : o / 4 / f.width < f.height := by
    rw [Nat.div_lt_iff_lt_mul hwpos]; exact hp
  have hx : o / 4 % f.width < f.width := Nat.mod_lt _ hwpos
  have hc : o % 4 < 4 := Nat.mod_lt _ (by decide)
  have ho' : o = (o / 4 / f.width * f.width + o / 4 % f.width) * 4 + o % 4 := by
    rw [Nat.div_add_mod']
    omega
  have h1 := pixel_readout_channel f init₁ _ _ _ hx hy hc
  have h2 := pixel_readout_channel g init₂ (o / 4 % f.width) (o / 4 / f.width) (o % 4)
    (by rw [← hw]; exact hx) (by rw [← hh]; exact hy) hc
  rw [← hw] at h2
  rw [← ho'] at h1 h2
  rw [h1, h2]
  exact hpix _ hy _ hx

/-- Instance of C4: the 4x4 picture stored with stride 8 and with stride 4,
read out into buffers with different initial contents, at offset 37. -/
theorem C4_readout_deterministic_witness :
    (frame_4x4.width = frame_4x4_packed.width ∧
      frame_4x4.height = frame_4x4_packed.height ∧
      (∀ y, y < frame_4x4.height → ∀ x, x < frame_4x4.width →
        frame_4x4.data0 ((y : Int) * frame_4x4.linesize0 + (x : Int))
          = frame_4x4_packed.data0 ((y : Int) * frame_4x4_packed.linesize0 + (x : Int))) ∧
      37 < frame_4x4.width * frame_4x4.height * 4) ∧
    pixel_readout frame_4x4 (fun _ => 0) 37 = pixel_readout frame_4x4_packed (fun _ => 1) 37 :=
  ⟨⟨rfl, rfl, by decide, by decide⟩,
    C4_readout_deterministic frame_4x4 frame_4x4_packed (fun _ => 0) (fun _ => 1) rfl rfl
      (by decide) 37 (by decide)⟩

/-! ## Stream selection -/

theorem scan_streams_none (l : List AVStream) :
    ∀ (i : Nat) (s : ScanState), (∀ st ∈ l, is_video_stream st = false) →
      scan_streams l i s = s := by
  induction l with
  | nil => intro i s _; rfl
  | cons st rest ih =>
    intro i s h
    have hst : is_video_stream st = false := h st (List.mem_cons_self _ _)
    have hrest : ∀ t ∈ rest, is_video_stream t = false :=
      fun t ht => h t (List.mem_cons_of_mem _ ht)
    unfold scan_streams
    cases hd : st.has_decoder with
    | false => simpa using ih (i + 1) s hrest
    | true =>
      have hty : st.codec_type ≠ AVMediaType.video := by
        intro heq
        simp [is_video_stream, hd, heq] at hst
      simpa [hty] using ih (i + 1) s hrest

theorem scan_streams_first (l : List AVStream) :
    ∀ (i : Nat) (s : ScanState) (k : Nat) (hk : k < l.length),
      is_video_stream l[k] = true →
      (∀ j (hj : j < k), is_video_stream (l.get ⟨j, Nat.lt_trans hj hk⟩) = false) →
      scan_streams l i s
        = { video_stream_index := ((i + k : Nat) : Int), width := l[k].width,
            height := l[k].height } := by
  induction l with
  | nil => intro i s k hk; simp at hk
  | cons st rest ih =>
    intro i s k hk hgood hbefore
    cases k with
    | zero =>
      simp only [List.getElem_cons_zero] at hgood ⊢
      simp only [is_video_stream, Bool.and_eq_true, decide_eq_true_eq] at hgood
      unfold scan_streams
      simp [hgood.1, hgood.2]
    | succ k =>
      have h0 : is_video_stream st = false := by
        simpa using hbefore 0 (Nat.succ_pos k)
      have hk' : k < rest.length := by simpa using hk
      have hgood' : is_video_stream rest[k] = true := by simpa using hgood
      have hbefore' : ∀ j (hj : j < k),
          is_video_stream (rest.get ⟨j, Nat.lt_trans hj hk'⟩) = false := by
        intro j hj
        simpa using hbefore (j + 1) (Nat.succ_lt_succ hj)
      have hrec := ih (i + 1) s k hk' hgood' hbefore'
      have hidx : i + 1 + k = i + (k + 1) := by omega
      unfold scan_streams
      cases hd : st.has_decoder with
      | false => simpa [hidx] using hrec
      | true =>
        have hty : st.codec_type ≠ AVMediaType.video := by
          intro heq
          simp [is_video_stream, hd, heq] at h0
        simpa [hty, hidx] using hrec

theorem load_frame_width {σ : Type} (env : LoadEnv σ)
    (ha : env.format_alloc_ok = true) (ho : env.open_input_ok = true) :
    (load_frame env).width
      = (scan_streams env.streams 0 ⟨-1, env.width0, env.height0⟩).width := by
  unfold load_frame
  simp only [ha, ho, Bool.not_true, Bool.false_eq_true, if_false]
  split_ifs <;> rfl

theorem load_frame_height {σ : Type} (env : LoadEnv σ)
    (ha : env.format_alloc_ok = true) (ho : env.open_input_ok = true) :
    (load_frame env).height
      = (scan_streams env.streams 0 ⟨-1, env.width0, env.height0⟩).height := by
  unfold load_frame
  simp only [ha, ho, Bool.not_true, Bool.false_eq_true, if_false]
  split_ifs <;> rfl

theorem load_frame_no_video {σ : Type} (env : LoadEnv σ)
    (h : (scan_streams env.streams 0 ⟨-1, env.width0, env.height0⟩).video_stream_index = -1) :
    (load_frame env).ok = false ∧ (load_frame env).calls = [] ∧
      (load_frame env).data = none := by
  unfold load_frame
  simp only [h]
  split_ifs <;> exact ⟨rfl, rfl, rfl⟩

/-- C5 (stream selection): the scan selects the least index whose stream has a
decoder and is of video type and reports that stream's width and height, which
`load_frame` hands out once the container is open; when no stream is both
decodable and video (the empty list included) the index stays -1 and
`load_frame` returns false without any decoder call and without a buffer. -/
theorem C5_first_decodable_video_stream {σ : Type} (env : LoadEnv σ) :
    (∀ k (hk : k < env.streams.length),
        is_video_stream env.streams[k] = true →
        (∀ j (hj : j < k), is_video_stream (env.streams.get ⟨j, Nat.lt_trans hj hk⟩) = false) →
        scan_streams env.streams 0 ⟨-1, env.width0, env.height0⟩
          = ⟨(k : Int), env.streams[k].width, env.streams[k].height⟩ ∧
        (env.format_alloc_ok = true → env.open_input_ok = true →
          (load_frame env).width = env.streams[k].width ∧
          (load_frame env).height = env.streams[k].height)) ∧
    ((∀ st ∈ env.streams, is_video_stream st = false) →
        (scan_streams env.streams 0 ⟨-1, env.width0, env.height0⟩).video_stream_index = -1 ∧
        (load_frame env).ok = false ∧ (load_frame env).calls = [] ∧
        (load_frame env).data = none) := by
  constructor
  · intro k hk hgood hbefore
    have hscan := scan_streams_first env.streams 0 ⟨-1, env.width0, env.height0⟩ k hk hgood
      (by intro j hj; simpa using hbefore j hj)
    rw [Nat.zero_add] at hscan
    refine ⟨hscan, ?_⟩
    intro ha ho
    rw [load_frame_width env ha ho, load_frame_height env ha ho, hscan]
    exact ⟨rfl, rfl⟩
  · intro hnone
    have hscan := scan_streams_none env.streams 0 ⟨-1, env.width0, env.height0⟩ hnone
    have hidx : (scan_streams env.streams 0 ⟨-1, env.width0, env.height0⟩).video_stream_index
        = -1 := by rw [hscan]
    exact ⟨hidx, load_frame_no_video env hidx⟩

/-- Instance of C5: in `streams_mixed` the stream of index 2 is selected (index
0 is audio, index 1 has no decoder) and 640x480 is reported; for the container
without video stream `load_frame` fails before any decoder call. -/
theorem C5_first_decodable_video_stream_witness :
    (scan_streams streams_mixed 0 ⟨-1, 0, 0⟩ = ⟨2, 640, 480⟩ ∧
      (load_frame (env_of streams_mixed [])).width = 640 ∧
      (load_frame (env_of streams_mixed [])).height = 480) ∧
    ((∀ st ∈ streams_no_video, is_video_stream st = false) ∧
      (scan_streams streams_no_video 0 ⟨-1, 0, 0⟩).video_stream_index = -1 ∧
      (load_frame (env_of streams_no_video [⟨0, 1⟩])).ok = false ∧
      (load_frame (env_of streams_no_video [⟨0, 1⟩])).calls = [] ∧
      (load_frame (env_of streams_no_video [⟨0, 1⟩])).data = none) :=
 by
  have h := (C5_first_decodable_video_stream (env_of streams_mixed [])).1 2 (by decide)
    (by decide) (by decide)
  exact ⟨⟨h.1, h.2 rfl rfl⟩, by decide,
    (C5_first_decodable_video_stream (env_of streams_no_video [⟨0, 1⟩])).2 (by decide)⟩

/-! ## The decode loop -/

theorem decode_loop_skip {σ : Type} (d : Decoder σ) (vsi : Int) (p : AVPacket)
    (ps : List AVPacket) (s : LoopState σ) (h : p.stream_index ≠ vsi) :
    decode_loop d vsi (p :: ps) s = decode_loop d vsi ps s := by
  rw [decode_loop, if_pos h]

theorem decode_loop_filter {σ : Type} (d : Decoder σ) (vsi : Int) (pkts : List AVPacket) :
    ∀ s : LoopState σ,
      decode_loop d vsi (pkts.filter (fun p => decide (p.stream_index = vsi))) s
        = decode_loop d vsi pkts s := by
  induction pkts with
  | nil => intro s; rfl
  | cons p ps ih =>
    intro s
    by_cases h : p.stream_index = vsi
    · rw [List.filter_cons_of_pos (by simpa using h)]
      rw [decode_loop, decode_loop]
      simp only [h, ne_eq, not_true_eq_false, if_false]
      simp only [ih]
    · rw [List.filter_cons_of_neg (by simpa using h), decode_loop_skip d vsi p ps s h]
      exact ih s

/-- C10 (packets of other streams are discarded): in the decode loop a packet
whose stream index differs from the selected one leaves decoder state, current
frame and the list of decoder calls as they are and the loop goes on with the
next packet; removing all such packets from the packet sequence changes
neither the outcome of the loop nor the result of `load_frame`. -/
theorem C10_other_stream_packets_discarded {σ : Type} (d : Decoder σ) (vsi : Int) :
    (∀ (p : AVPacket) (ps : List AVPacket) (s : LoopState σ), p.stream_index ≠ vsi →
        decode_loop d vsi (p :: ps) s = decode_loop d vsi ps s ∧
        decode_loop d vsi [p] s = (true, s)) ∧
    (∀ (pkts : List AVPacket) (s : LoopState σ),
        decode_loop d vsi (pkts.filter (fun p => decide (p.stream_index = vsi))) s
          = decode_loop d vsi pkts s) ∧
    (∀ env : LoadEnv σ,
        load_frame
            { env with
              packets := env.packets.filter (fun p => decide (p.stream_index =
                (scan_streams env.streams 0 ⟨-1, env.width0, env.height0⟩).video_stream_index)) }
          = load_frame env) := by
  refine ⟨fun p ps s h => ⟨decode_loop_skip d vsi p ps s h, ?_⟩,
    decode_loop_filter d vsi, ?_⟩
  · rw [decode_loop_skip d vsi p [] s h]; rfl
  · intro env
    unfold load_frame
    simp only [decode_loop_filter]

/-- Instance of C10: with stream 2 selected, an audio packet (stream 0) between
two video packets reaches the decoder neither alone nor in the sequence. -/
theorem C10_other_stream_packets_discarded_witness :
    ((⟨0, 7⟩ : AVPacket).stream_index ≠ 2) ∧
    decode_loop counting_decoder 2 [⟨0, 7⟩, ⟨2, 8⟩] ⟨0, empty_frame, []⟩
      = decode_loop counting_decoder 2 [⟨2, 8⟩] ⟨0, empty_frame, []⟩ ∧
    decode_loop counting_decoder 2 [⟨0, 7⟩] ⟨0, empty_frame, []⟩
      = (true, ⟨0, empty_frame, []⟩) :=
  ⟨by decide,
    (C10_other_stream_packets_discarded counting_decoder 2).1 ⟨0, 7⟩ [⟨2, 8⟩]
      ⟨0, empty_frame, []⟩ (by decide)⟩

/-! ## Double precision arithmetic -/

theorem round_half_even_intCast (z : ℤ) : round_half_even (z : ℚ) = z := by
  simp [round_half_even]

theorem round_half_even_nonneg (q : ℚ) (h : 0 ≤ q) : 0 ≤ round_half_even q := by
  have hf : 0 ≤ ⌊q⌋ := Int.floor_nonneg.mpr h
  unfold round_half_even
  split_ifs <;> omega

theorem round_half_even_nonpos (q : ℚ) (h : q ≤ 0) : round_half_even q ≤ 0 := by
  have hf : ⌊q⌋ ≤ 0 := by
    have := Int.floor_le q
    have h2 : ((⌊q⌋ : ℤ) : ℚ) ≤ 0 := le_trans this h
    exact_mod_cast h2
  unfold round_half_even
  by_cases h1 : q - ⌊q⌋ < 1 / 2
  · rw [if_pos h1]; exact hf
  · have hlt : ((⌊q⌋ : ℤ) : ℚ) < 0 := by linarith
    have hlt' : ⌊q⌋ < 0 := by exact_mod_cast hlt
    rw [if_neg h1]
    split_ifs <;> omega

theorem to_double_nonneg (x : ℚ) (h : 0 ≤ x) : 0 ≤ to_double x := by
  unfold to_double
  split_ifs with h0
  · exact le_refl _
  · have hp : (0 : ℚ) < 2 ^ (Int.log 2 |x| - 52) := by positivity
    have hr := round_half_even_nonneg (x / 2 ^ (Int.log 2 |x| - 52)) (div_nonneg h hp.le)
    have hr' : (0 : ℚ) ≤ (round_half_even (x / 2 ^ (Int.log 2 |x| - 52)) : ℚ) := by
      exact_mod_cast hr
    exact mul_nonneg hr' hp.le

theorem to_double_nonpos (x : ℚ) (h : x ≤ 0) : to_double x ≤ 0 := by
  unfold to_double
  split_ifs with h0
  · exact le_refl _
  · have hp : (0 : ℚ) < 2 ^ (Int.log 2 |x| - 52) := by positivity
    have hr := round_half_even_nonpos (x / 2 ^ (Int.log 2 |x| - 52))
      (div_nonpos_of_nonpos_of_nonneg h hp.le)
    have hr' : (round_half_even (x / 2 ^ (Int.log 2 |x| - 52)) : ℚ) ≤ 0 := by
      exact_mod_cast hr
    exact mul_nonpos_of_nonpos_of_nonneg hr' hp.le

theorem to_double_of_is_double (x : ℚ) (h : is_double x) : to_double x = x := by
  obtain ⟨m, k, hm, rfl⟩ := h
  unfold to_double
  split_ifs with h0
  · exact h0.symm
  · have hm0 : (m : ℚ) ≠ 0 := by
      intro hz; apply h0; rw [hz]; simp
    have h2k : (0 : ℚ) < 2 ^ k := by positivity
    have habs : |(m : ℚ) * 2 ^ k| = |(m : ℚ)| * 2 ^ k := by
      rw [abs_mul, abs_of_pos h2k]
    have hpos : (0 : ℚ) < |(m : ℚ) * 2 ^ k| := abs_pos.mpr h0
    have hlt : |(m : ℚ) * 2 ^ k| < ((2 : ℕ) : ℚ) ^ (53 + k) := by
      rw [habs, zpow_add₀ (by norm_num)]
      have : |(m : ℚ)| < 2 ^ 53 := by exact_mod_cast hm
      have h3 : ((2 : ℕ) : ℚ) ^ (53 : ℤ) = 2 ^ 53 := by norm_num
      rw [h3]
      have h4 : ((2 : ℕ) : ℚ) ^ k = 2 ^ k := by norm_num
      rw [h4]
      exact mul_lt_mul_of_pos_right this h2k
    have hlog : Int.log 2 |(m : ℚ) * 2 ^ k| < 53 + k :=
      (Int.lt_zpow_iff_log_lt (by norm_num) hpos).mp hlt
    set e := Int.log 2 |(m : ℚ) * 2 ^ k| with he
    obtain ⟨j, hj⟩ : ∃ j : ℕ, k = e - 52 + j := ⟨(k - (e - 52)).toNat, by omega⟩
    have hsplit : (2 : ℚ) ^ k = 2 ^ (e - 52) * 2 ^ j := by
      rw [hj, zpow_add₀ (by norm_num)]; simp
    have hpe : (2 : ℚ) ^ (e - 52) ≠ 0 := by positivity
    have hdiv : (m : ℚ) * 2 ^ k / 2 ^ (e - 52) = ((m * 2 ^ j : ℤ) : ℚ) := by
      rw [hsplit]; field_simp; ring
    rw [hdiv, round_half_even_intCast, hsplit]
    push_cast; ring

theorem is_double_intCast (z : ℤ) (h : |z| < 2 ^ 53) : is_double (z : ℚ) :=
  ⟨z, 0, h, by simp⟩

theorem pt_in_seconds_exact (pts : Int) (tb : AVRational) (h : exact_time pts tb) :
    pt_in_seconds pts tb = (pts : ℚ) * (tb.num : ℚ) / (tb.den : ℚ) := by
  obtain ⟨hp, hn, hd, hm, hq⟩ := h
  unfold pt_in_seconds ddiv dmul
  rw [to_double_of_is_double _ hp, to_double_of_is_double _ hn, to_double_of_is_double _ hd,
    to_double_of_is_double _ hm, to_double_of_is_double _ hq]

theorem log_two_third : Int.log 2 |(1 / 3 : ℚ)| = -2 := by
  have habs : |(1 / 3 : ℚ)| = 1 / 3 := abs_of_pos (by norm_num)
  rw [habs]
  have hpos : (0 : ℚ) < 1 / 3 := by norm_num
  have h1 : (-2 : ℤ) ≤ Int.log 2 (1 / 3 : ℚ) :=
    (Int.zpow_le_iff_le_log (by norm_num) hpos).mp (by norm_num)
  have h2 : Int.log 2 (1 / 3 : ℚ) < -1 :=
    (Int.lt_zpow_iff_log_lt (by norm_num) hpos).mp (by norm_num)
  omega

theorem to_double_third : to_double (1 / 3) = 6004799503160661 / 18014398509481984 := by
  have hfloor : ⌊(18014398509481984 / 3 : ℚ)⌋ = 6004799503160661 := by
    rw [Int.floor_eq_iff]; constructor <;> norm_num
  have hscaled : (1 / 3 : ℚ) / 2 ^ ((-2 : ℤ) - 52) = 18014398509481984 / 3 := by
    norm_num
  have hround : round_half_even (18014398509481984 / 3 : ℚ) = 6004799503160661 := by
    unfold round_half_even
    rw [hfloor, if_pos (by norm_num)]
  unfold to_double
  rw [if_neg (by norm_num), log_two_third, hscaled, hround]
  norm_num

/-! ## Presentation time -/

theorem exact_time_of_dvd (pts : Int) (tb : AVRational) (hden : 0 < tb.den)
    (hp : |pts| < 2 ^ 53) (hn : |tb.num| ≤ 2 ^ 31) (hd : tb.den ≤ 2 ^ 31)
    (hm : |pts * tb.num| < 2 ^ 53) (hdvd : tb.den ∣ pts * tb.num) : exact_time pts tb := by
  obtain ⟨q, hq⟩ := hdvd
  have hd0 : (tb.den : ℚ) ≠ 0 := by exact_mod_cast hden.ne'
  refine ⟨is_double_intCast _ hp, is_double_intCast _ (lt_of_le_of_lt hn (by norm_num)),
    is_double_intCast _ (by rw [abs_of_pos hden]; exact lt_of_le_of_lt hd (by norm_num)),
    ⟨pts * tb.num, 0, hm, by push_cast; simp⟩, ⟨q, 0, ?_, ?_⟩⟩
  · have habs : |pts * tb.num| = tb.den * |q| := by rw [hq, abs_mul, abs_of_pos hden]
    have hq0 : 0 ≤ |q| := abs_nonneg q
    nlinarith
  · have hcast : (pts : ℚ) * (tb.num : ℚ) = (tb.den : ℚ) * (q : ℚ) := by exact_mod_cast hq
    rw [hcast]
    field_simp

/-- C7 as stated (the computed time equals `pts*num/den` exactly for every
`pts` and every time-base with positive denominator) fails for `pts = 1` and the
time-base 1/3: line 604 yields the double nearest to one third,
6004799503160661 / 2^54, which is not one third. -/
theorem C7_one_third_is_rounded :
    pt_in_seconds 1 ⟨1, 3⟩ = 6004799503160661 / 18014398509481984 ∧
    pt_in_seconds 1 ⟨1, 3⟩ ≠ ((1 : Int) : ℚ) * ((1 : Int) : ℚ) / ((3 : Int) : ℚ) := by
  have h1 : to_double ((1 : Int) : ℚ) = 1 := by
    rw [to_double_of_is_double _ (is_double_intCast 1 (by norm_num))]; norm_num
  have h3 : to_double ((3 : Int) : ℚ) = 3 := by
    rw [to_double_of_is_double _ (is_double_intCast 3 (by norm_num))]; norm_num
  have h11 : to_double (1 * 1 : ℚ) = 1 := by
    have := to_double_of_is_double (1 * 1 : ℚ) ⟨1, 0, by norm_num, by norm_num⟩
    rw [this]; norm_num
  have hval : pt_in_seconds 1 ⟨1, 3⟩ = 6004799503160661 / 18014398509481984 := by
    unfold pt_in_seconds ddiv dmul
    simp only [h1, h3, h11]
    exact to_double_third
  refine ⟨hval, ?_⟩
  rw [hval]
  norm_num

/-- C7, amended: for a time-base with positive denominator and every tick count
for which `pts`, `num`, `den`, `pts*num` and `pts*num/den` are binary64 values
(`exact_time`), the time computed by line 604 equals `pts*num/den` exactly, it
is additive in `pts` on such tick counts, and the pacing loop of the tick runs
against exactly that value, computed from the tick count read in this tick
whatever state the earlier ticks left.  The condition holds in particular for
a time-base in the range of `int` when `|pts|` and `|pts*num|` are below
`2^53` and `den` divides `pts*num`. -/
theorem C7_presentation_time_exact_on_doubles (tb : AVRational) (_hden : 0 < tb.den) :
    (∀ pts : Int, exact_time pts tb →
        pt_in_seconds pts tb = (pts : ℚ) * (tb.num : ℚ) / (tb.den : ℚ)) ∧
    (∀ p q : Int, exact_time p tb → exact_time q tb → exact_time (p + q) tb →
        pt_in_seconds (p + q) tb = pt_in_seconds p tb + pt_in_seconds q tb) ∧
    (∀ (fuel : Nat) (ok : Bool) (pts : Int) (s : TickState), exact_time pts tb →
        update_tick fuel tb (ok, pts) s
          = present_if_paced pts
              (pace ((pts : ℚ) * (tb.num : ℚ) / (tb.den : ℚ)) fuel
                (reset_clock_once (report_read ok s)))) ∧
    (∀ pts : Int, |pts| < 2 ^ 53 → |tb.num| ≤ 2 ^ 31 → tb.den ≤ 2 ^ 31 →
        |pts * tb.num| < 2 ^ 53 → tb.den ∣ pts * tb.num →
        pt_in_seconds pts tb = (pts : ℚ) * (tb.num : ℚ) / (tb.den : ℚ)) := by
  refine ⟨fun pts h => pt_in_seconds_exact pts tb h, ?_, ?_,
    fun pts hp hn hd hm hdvd =>
      pt_in_seconds_exact pts tb (exact_time_of_dvd pts tb _hden hp hn hd hm hdvd)⟩
  · intro p q hp hq hpq
    rw [pt_in_seconds_exact _ _ hp, pt_in_seconds_exact _ _ hq, pt_in_seconds_exact _ _ hpq]
    push_cast
    ring
  · intro fuel ok pts s h
    unfold update_tick
    simp only [pt_in_seconds_exact pts tb h]

theorem exact_time_30_tb_30fps : exact_time 30 tb_30fps :=
  ⟨⟨30, 0, by norm_num, by norm_num⟩, ⟨1, 0, by norm_num, by norm_num [tb_30fps]⟩,
    ⟨30, 0, by norm_num, by norm_num [tb_30fps]⟩,
    ⟨30, 0, by norm_num, by norm_num [tb_30fps]⟩,
    ⟨1, 0, by norm_num, by norm_num [tb_30fps]⟩⟩

theorem exact_time_0_tb_30fps : exact_time 0 tb_30fps :=
  ⟨⟨0, 0, by norm_num, by norm_num⟩, ⟨1, 0, by norm_num, by norm_num [tb_30fps]⟩,
    ⟨30, 0, by norm_num, by norm_num [tb_30fps]⟩,
    ⟨0, 0, by norm_num, by norm_num [tb_30fps]⟩,
    ⟨0, 0, by norm_num, by norm_num [tb_30fps]⟩⟩

/-- Instances of C7 (amended): 30 ticks of 1/30 s are exactly one second, and
the tick count 0 gives 0. -/
theorem C7_presentation_time_exact_on_doubles_witness :
    (0 < tb_30fps.den ∧ exact_time 30 tb_30fps ∧ exact_time 0 tb_30fps ∧
      exact_time (30 + 0) tb_30fps ∧
      |(30 : Int)| < 2 ^ 53 ∧ |tb_30fps.num| ≤ 2 ^ 31 ∧ tb_30fps.den ≤ 2 ^ 31 ∧
      |(30 : Int) * tb_30fps.num| < 2 ^ 53 ∧ tb_30fps.den ∣ 30 * tb_30fps.num) ∧
    pt_in_seconds 30 tb_30fps = 1 ∧ pt_in_seconds 0 tb_30fps = 0 ∧
    pt_in_seconds (30 + 0) tb_30fps = pt_in_seconds 30 tb_30fps + pt_in_seconds 0 tb_30fps ∧
    pt_in_seconds 30 tb_30fps = ((30 : Int) : ℚ) * (tb_30fps.num : ℚ) / (tb_30fps.den : ℚ) := by
  have h := C7_presentation_time_exact_on_doubles tb_30fps (by decide)
  refine ⟨⟨by decide, exact_time_30_tb_30fps, exact_time_0_tb_30fps, exact_time_30_tb_30fps,
    by decide, by decide, by decide, by decide, by decide⟩, ?_, ?_,
    h.2.1 30 0 exact_time_30_tb_30fps exact_time_0_tb_30fps exact_time_30_tb_30fps,
    h.2.2.2 30 (by decide) (by decide) (by decide) (by decide) (by decide)⟩
  · rw [h.1 30 exact_time_30_tb_30fps]; norm_num [tb_30fps]
  · rw [h.1 0 exact_time_0_tb_30fps]; norm_num [tb_30fps]

/-! ## The pacing loop -/

theorem pace_ready (target : ℚ) (fuel : Nat) (s : TickState)
    (h : target ≤ reading_at s.clock 0) :
    pace target (fuel + 1) s
      = (true, { first_frame := s.first_frame, clock := (glfwGetTime s.clock).2,
                 events := s.events }) := by
  have hn : ¬ target > (glfwGetTime s.clock).1 := by
    simpa [glfwGetTime, reading_at] using h
  rw [pace, if_neg hn]

theorem pace_wait (target : ℚ) (fuel : Nat) (s : TickState)
    (h : reading_at s.clock 0 < target) :
    pace target (fuel + 1) s
      = pace target fuel
          { first_frame := s.first_frame,
            clock := (glfwGetTime (glfwGetTime s.clock).2).2,
            events := s.events ++ [TickEvent.wait (dsub target (reading_at s.clock 1))] } := by
  have hp : target > (glfwGetTime s.clock).1 := by
    simpa [glfwGetTime, reading_at] using h
  rw [pace, if_pos hp]
  rfl

theorem count_set_time_append (a b : List TickEvent) :
    count_set_time (a ++ b) = count_set_time a + count_set_time b := by
  simp [count_set_time, List.filter_append]

theorem waits_append (a b : List TickEvent) : waits (a ++ b) = waits a ++ waits b := by
  simp [waits, List.filterMap_append]

/-- The pacing loop only appends waits to the event log and leaves the flag
and the origin of the clock alone. -/
theorem pace_frame (target : ℚ) :
    ∀ (fuel : Nat) (s : TickState),
      (pace target fuel s).2.first_frame = s.first_frame ∧
      (pace target fuel s).2.clock.offset = s.clock.offset ∧
      (pace target fuel s).2.clock.timer = s.clock.timer ∧
      ∃ rest, (pace target fuel s).2.events = s.events ++ rest ∧
        count_set_time rest = 0 := by
  intro fuel
  induction fuel with
  | zero => intro s; exact ⟨rfl, rfl, rfl, [], by simp [pace], rfl⟩
  | succ fuel ih =>
    intro s
    rcases le_or_lt target (reading_at s.clock 0) with h | h
    · rw [pace_ready target fuel s h]
      exact ⟨rfl, rfl, rfl, [], by simp, rfl⟩
    · rw [pace_wait target fuel s h]
      obtain ⟨h1, h2, h3, rest, h4, h5⟩ := ih
        { first_frame := s.first_frame,
          clock := (glfwGetTime (glfwGetTime s.clock).2).2,
          events := s.events ++ [TickEvent.wait (dsub target (reading_at s.clock 1))] }
      refine ⟨h1, h2, h3, TickEvent.wait (dsub target (reading_at s.clock 1)) :: rest, ?_, ?_⟩
      · rw [h4]; simp
      · have hc : count_set_time
            (TickEvent.wait (dsub target (reading_at s.clock 1)) :: rest)
            = count_set_time rest := by
          simp [count_set_time]
        rw [hc, h5]

/-- When the condition of the pacing loop holds at its first evaluation, the
first event the loop appends is the wait for `target - glfwGetTime()`. -/
theorem pace_first_wait (target : ℚ) (fuel : Nat) (s : TickState)
    (h : reading_at s.clock 0 < target) :
    ∃ rest, (pace target (fuel + 1) s).2.events
      = s.events ++ TickEvent.wait (dsub target (reading_at s.clock 1)) :: rest := by
  rw [pace_wait target fuel s h]
  obtain ⟨_, _, _, rest, h4, _⟩ := pace_frame target fuel
    { first_frame := s.first_frame,
      clock := (glfwGetTime (glfwGetTime s.clock).2).2,
      events := s.events ++ [TickEvent.wait (dsub target (reading_at s.clock 1))] }
  exact ⟨rest, by rw [h4]; simp⟩

/-- When the pacing loop is left, the clock reading that ended it is not
earlier than the target. -/
theorem pace_left (target : ℚ) :
    ∀ (fuel : Nat) (s : TickState), (pace target fuel s).1 = true →
      ∃ n, (pace target fuel s).2.clock.queries = s.clock.queries + n + 1 ∧
        target ≤ reading_at s.clock n := by
  intro fuel
  induction fuel with
  | zero => intro s h; simp [pace] at h
  | succ fuel ih =>
    intro s hs
    rcases le_or_lt target (reading_at s.clock 0) with h | h
    · rw [pace_ready target fuel s h]
      exact ⟨0, rfl, h⟩
    · rw [pace_wait target fuel s h] at hs ⊢
      obtain ⟨n, hn1, hn2⟩ := ih _ hs
      refine ⟨n + 2, ?_, ?_⟩
      · rw [hn1]; simp only [glfwGetTime]; omega
      · have hr : reading_at (glfwGetTime (glfwGetTime s.clock).2).2 n
            = reading_at s.clock (n + 2) := by
          simp only [reading_at, glfwGetTime]
          rw [show s.clock.queries + 1 + 1 + n = s.clock.queries + (n + 2) by omega]
        rw [← hr]; exact hn2

/-- The pacing loop is left at the latest with the first reading taken by its
condition that has reached the target. -/
theorem pace_terminates (target : ℚ) :
    ∀ (k : Nat) (s : TickState), target ≤ reading_at s.clock (2 * k) →
      (pace target (k + 1) s).1 = true := by
  intro k
  induction k with
  | zero => intro s h; rw [pace_ready target 0 s h]
  | succ k ih =>
    intro s hk
    rcases le_or_lt target (reading_at s.clock 0) with h | h
    · rw [pace_ready target (k + 1) s h]
    · rw [pace_wait target (k + 1) s h]
      apply ih
      have hr : reading_at (glfwGetTime (glfwGetTime s.clock).2).2 (2 * k)
          = reading_at s.clock (2 * (k + 1)) := by
        simp only [reading_at, glfwGetTime]
        rw [show s.clock.queries + 1 + 1 + 2 * k = s.clock.queries + 2 * (k + 1) by omega]
      show target ≤ reading_at (glfwGetTime (glfwGetTime s.clock).2).2 (2 * k)
      rw [hr]; exact hk

/-- C6 as stated (when the target is later than the clock reading `now`, the
wait issued has the duration `target - now`) fails on a running clock: with
target 2 the loop condition reads the clock at 3/2, the argument of
`glfwWaitEventsTimeout` reads it again at 7/4, and the wait issued is 1/4,
not 2 - 3/2 = 1/2. -/
theorem C6_moving_clock_shortens_wait :
    reading_at clock_moving 0 = 3 / 2 ∧
    reading_at clock_moving 1 = 7 / 4 ∧
    (pace 2 2 ⟨false, clock_moving, []⟩).1 = true ∧
    (pace 2 2 ⟨false, clock_moving, []⟩).2.events = [TickEvent.wait (1 / 4)] ∧
    (pace 2 2 ⟨false, clock_moving, []⟩).2.events
      ≠ [TickEvent.wait (2 - reading_at clock_moving 0)] := by
  have h0 : reading_at clock_moving 0 = 3 / 2 := by norm_num [reading_at, clock_moving]
  have h1 : reading_at clock_moving 1 = 7 / 4 := by norm_num [reading_at, clock_moving]
  have hds : dsub 2 (reading_at clock_moving 1) = 1 / 4 := by
    rw [h1, dsub, to_double_of_is_double _ ⟨1, -2, by norm_num, by norm_num⟩]
    norm_num
  have hw : pace 2 2 ⟨false, clock_moving, []⟩
      = pace 2 1 ⟨false, (glfwGetTime (glfwGetTime clock_moving).2).2,
          [] ++ [TickEvent.wait (dsub 2 (reading_at clock_moving 1))]⟩ :=
    pace_wait 2 1 ⟨false, clock_moving, []⟩ (by rw [h0]; norm_num)
  have hr : pace 2 1 ⟨false, (glfwGetTime (glfwGetTime clock_moving).2).2,
          [] ++ [TickEvent.wait (dsub 2 (reading_at clock_moving 1))]⟩
      = (true, ⟨false, (glfwGetTime (glfwGetTime (glfwGetTime clock_moving).2).2).2,
          [] ++ [TickEvent.wait (dsub 2 (reading_at clock_moving 1))]⟩) :=
    pace_ready 2 0 _ (by norm_num [reading_at, clock_moving, glfwGetTime])
  have hev : (pace 2 2 ⟨false, clock_moving, []⟩).2.events = [TickEvent.wait (1 / 4)] := by
    rw [hw, hr]; simp [hds]
  refine ⟨h0, h1, by rw [hw, hr], hev, ?_⟩
  rw [hev, h0]
  norm_num

/-- C6, amended (pacing step): when the target is not later than the clock
reading of the loop condition no wait is issued and the loop is left;
otherwise a wait is issued whose duration is the double difference
`target - glfwGetTime()` of line 606, taken with a fresh clock reading at the
call: `target` minus that reading when the difference is a double, and
`target - now` for the reading `now` of the condition when the clock still
reads `now` at the call; the loop is left only with a reading that has reached
the target, and it is left as soon as the reading of its condition has. -/
theorem C6_pacing_step (target : ℚ) (s : TickState) (fuel : Nat) :
    (target ≤ reading_at s.clock 0 →
        (pace target (fuel + 1) s).1 = true ∧
        (pace target (fuel + 1) s).2.events = s.events) ∧
    (reading_at s.clock 0 < target →
        (∃ rest, (pace target (fuel + 1) s).2.events
          = s.events ++ TickEvent.wait (dsub target (reading_at s.clock 1)) :: rest) ∧
        (reading_at s.clock 1 = reading_at s.clock 0 →
          is_double (target - reading_at s.clock 0) →
          ∃ rest, (pace target (fuel + 1) s).2.events
            = s.events ++ TickEvent.wait (target - reading_at s.clock 0) :: rest) ∧
        (is_double (target - reading_at s.clock 1) →
          ∃ rest, (pace target (fuel + 1) s).2.events
            = s.events ++ TickEvent.wait (target - reading_at s.clock 1) :: rest)) ∧
    ((pace target fuel s).1 = true →
        ∃ n, (pace target fuel s).2.clock.queries = s.clock.queries + n + 1 ∧
          target ≤ reading_at s.clock n) ∧
    (∀ k, target ≤ reading_at s.clock (2 * k) → (pace target (k + 1) s).1 = true) := by
  have hwait := pace_first_wait target fuel s
  refine ⟨?_, ?_, pace_left target fuel s, fun k => pace_terminates target k s⟩
  · intro h
    rw [pace_ready target fuel s h]
    exact ⟨rfl, rfl⟩
  · intro h
    obtain ⟨rest, hrest⟩ := hwait h
    refine ⟨hwait h, ?_, ?_⟩
    · intro hsame hd
      refine ⟨rest, ?_⟩
      rw [hrest, hsame, dsub, to_double_of_is_double _ hd]
    · intro hd
      refine ⟨rest, ?_⟩
      rw [hrest, dsub, to_double_of_is_double _ hd]

/-- Instances of C6 (amended): target 2.0 with the clock at 1.5, at the
condition and at the call, gives a wait of 0.5, after which (the clock at 2.0)
the loop is left; on the running clock, which reads 7/4 at the call, the wait
is 2 - 7/4; target 2.0 with the clock at 2.0 or at 2.1 gives no wait. -/
theorem C6_pacing_step_witness :
    (reading_at clock_at_1_5 0 < 2 ∧
      reading_at clock_at_1_5 1 = reading_at clock_at_1_5 0 ∧
      is_double ((2 : ℚ) - reading_at clock_at_1_5 0) ∧
      reading_at clock_moving 0 < 2 ∧
      is_double ((2 : ℚ) - reading_at clock_moving 1)) ∧
    (∃ rest, (pace 2 2 ⟨false, clock_at_1_5, []⟩).2.events
      = [] ++ TickEvent.wait (2 - reading_at clock_at_1_5 0) :: rest) ∧
    (∃ rest, (pace 2 2 ⟨false, clock_moving, []⟩).2.events
      = [] ++ TickEvent.wait (2 - reading_at clock_moving 1) :: rest) ∧
    (pace 2 2 ⟨false, clock_at_1_5, []⟩).2.events = [TickEvent.wait (1 / 2)] ∧
    (pace 2 2 ⟨false, clock_at_1_5, []⟩).1 = true ∧
    (pace 2 1 ⟨false, ⟨fun _ => 2, 0, 0⟩, []⟩).2.events = [] ∧
    (pace 2 1 ⟨false, ⟨fun _ => 21 / 10, 0, 0⟩, []⟩).2.events = [] := by
  have hd : is_double ((2 : ℚ) - reading_at clock_at_1_5 0) :=
    ⟨1, -1, by norm_num, by norm_num [reading_at, clock_at_1_5]⟩
  have hdm : is_double ((2 : ℚ) - reading_at clock_moving 1) :=
    ⟨1, -2, by norm_num, by norm_num [reading_at, clock_moving]⟩
  have h15 := C6_pacing_step 2 ⟨false, clock_at_1_5, []⟩ 1
  have hmv := C6_pacing_step 2 ⟨false, clock_moving, []⟩ 1
  have h20 := C6_pacing_step 2 ⟨false, ⟨fun _ => 2, 0, 0⟩, []⟩ 0
  have h21 := C6_pacing_step 2 ⟨false, ⟨fun _ => 21 / 10, 0, 0⟩, []⟩ 0
  have hlt : reading_at clock_at_1_5 0 < 2 := by norm_num [reading_at, clock_at_1_5]
  have hltm : reading_at clock_moving 0 < 2 := by norm_num [reading_at, clock_moving]
  have hsame : reading_at clock_at_1_5 1 = reading_at clock_at_1_5 0 := by
    norm_num [reading_at, clock_at_1_5]
  refine ⟨⟨hlt, hsame, hd, hltm, hdm⟩, (h15.2.1 hlt).2.1 hsame hd,
    (hmv.2.1 hltm).2.2 hdm, ?_, ?_,
    (h20.1 (by norm_num [reading_at])).2, (h21.1 (by norm_num [reading_at])).2⟩
  · have hw : pace 2 2 ⟨false, clock_at_1_5, []⟩
        = pace 2 1 ⟨false, (glfwGetTime (glfwGetTime clock_at_1_5).2).2,
            [] ++ [TickEvent.wait (dsub 2 (reading_at clock_at_1_5 1))]⟩ :=
      pace_wait 2 1 ⟨false, clock_at_1_5, []⟩ (by norm_num [reading_at, clock_at_1_5])
    have hr : pace 2 1 ⟨false, (glfwGetTime (glfwGetTime clock_at_1_5).2).2,
            [] ++ [TickEvent.wait (dsub 2 (reading_at clock_at_1_5 1))]⟩
        = (true, ⟨false, (glfwGetTime (glfwGetTime (glfwGetTime clock_at_1_5).2).2).2,
            [] ++ [TickEvent.wait (dsub 2 (reading_at clock_at_1_5 1))]⟩) :=
      pace_ready 2 0 _ (by norm_num [reading_at, clock_at_1_5, glfwGetTime])
    rw [hw, hr]
    have hds : dsub 2 (reading_at clock_at_1_5 1) = 1 / 2 := by
      have h1 : reading_at clock_at_1_5 1 = reading_at clock_at_1_5 0 := by
        norm_num [reading_at, clock_at_1_5]
      rw [h1, dsub, to_double_of_is_double _ hd]
      norm_num [reading_at, clock_at_1_5]
    simp [hds]
  · exact (h15.2.2.2 1 (by norm_num [reading_at, clock_at_1_5]))

/-! ## The update tick -/

theorem report_read_frame (ok : Bool) (s : TickState) :
    (report_read ok s).first_frame = s.first_frame ∧
    (report_read ok s).clock = s.clock ∧
    count_set_time (report_read ok s).events = count_set_time s.events ∧
    waits (report_read ok s).events = waits s.events := by
  unfold report_read
  cases ok
  · simp [count_set_time_append, waits_append, count_set_time, waits]
  · simp

theorem present_if_paced_frame (pts : Int) (r : Bool × TickState) :
    (present_if_paced pts r).1 = r.1 ∧
    (present_if_paced pts r).2.first_frame = r.2.first_frame ∧
    (present_if_paced pts r).2.clock = r.2.clock ∧
    count_set_time (present_if_paced pts r).2.events = count_set_time r.2.events ∧
    waits (present_if_paced pts r).2.events = waits r.2.events := by
  obtain ⟨b, t⟩ := r
  unfold present_if_paced
  cases b
  · simp
  · simp [count_set_time_append, waits_append, count_set_time, waits]

/-- A tick that starts with the flag cleared leaves it cleared, does not reset
the clock and does not move its origin. -/
theorem update_tick_later (fuel : Nat) (tb : AVRational) (inp : Bool × Int) (s : TickState)
    (h : s.first_frame = false) :
    (update_tick fuel tb inp s).2.first_frame = false ∧
    count_set_time (update_tick fuel tb inp s).2.events = count_set_time s.events ∧
    (update_tick fuel tb inp s).2.clock.offset = s.clock.offset := by
  obtain ⟨r1, r2, r3, _⟩ := report_read_frame inp.1 s
  have hreset : reset_clock_once (report_read inp.1 s) = report_read inp.1 s := by
    unfold reset_clock_once
    rw [r1, h]; simp
  obtain ⟨p1, p2, _, rest, p4, p5⟩ :=
    pace_frame (pt_in_seconds inp.2 tb) fuel (report_read inp.1 s)
  obtain ⟨_, q2, q3, q4, _⟩ := present_if_paced_frame inp.2
    (pace (pt_in_seconds inp.2 tb) fuel (report_read inp.1 s))
  unfold update_tick
  rw [hreset, q2, q3, q4, p1, p2, p4, count_set_time_append, p5, r1, r2, r3]
  exact ⟨h, rfl, rfl⟩

/-- The first tick clears the flag, resets the clock exactly once and fixes the
origin at the timer value of the reset. -/
theorem update_tick_first (fuel : Nat) (tb : AVRational) (inp : Bool × Int) (c : Clock) :
    (update_tick fuel tb inp (initial_tick_state c)).2.first_frame = false ∧
    count_set_time (update_tick fuel tb inp (initial_tick_state c)).2.events = 1 ∧
    (update_tick fuel tb inp (initial_tick_state c)).2.clock.offset = c.timer c.queries := by
  obtain ⟨r1, r2, r3, _⟩ := report_read_frame inp.1 (initial_tick_state c)
  have hreset : reset_clock_once (report_read inp.1 (initial_tick_state c))
      = { first_frame := false, clock := glfwSetTime 0 c,
          events := (report_read inp.1 (initial_tick_state c)).events
            ++ [TickEvent.set_time 0] } := by
    unfold reset_clock_once
    rw [r1, r2]; simp [initial_tick_state]
  obtain ⟨p1, p2, _, rest, p4, p5⟩ :=
    pace_frame (pt_in_seconds inp.2 tb) fuel
      (reset_clock_once (report_read inp.1 (initial_tick_state c)))
  obtain ⟨_, q2, q3, q4, _⟩ := present_if_paced_frame inp.2
    (pace (pt_in_seconds inp.2 tb) fuel
      (reset_clock_once (report_read inp.1 (initial_tick_state c))))
  unfold update_tick
  rw [q2, q3, q4, p1, p2, p4, count_set_time_append, p5, hreset]
  refine ⟨rfl, ?_, ?_⟩
  · show count_set_time ((report_read inp.1 (initial_tick_state c)).events
        ++ [TickEvent.set_time 0]) + 0 = 1
    rw [count_set_time_append, r3]
    simp [count_set_time, initial_tick_state]
  · simp [glfwSetTime]

theorem run_ticks_later (fuel : Nat) (tb : AVRational) (inputs : List (Bool × Int)) :
    ∀ s : TickState, s.first_frame = false →
      (run_ticks fuel tb inputs s).2.first_frame = false ∧
      count_set_time (run_ticks fuel tb inputs s).2.events = count_set_time s.events ∧
      (run_ticks fuel tb inputs s).2.clock.offset = s.clock.offset := by
  induction inputs with
  | nil => intro s h; exact ⟨h, rfl, rfl⟩
  | cons inp rest ih =>
    intro s h
    obtain ⟨u1, u2, u3⟩ := update_tick_later fuel tb inp s h
    rw [run_ticks]
    split_ifs
    · obtain ⟨v1, v2, v3⟩ := ih _ u1
      exact ⟨v1, by rw [v2, u2], by rw [v3, u3]⟩
    · exact ⟨u1, u2, u3⟩

/-- C9 (the clock origin is set exactly once, in the first tick): after the
first tick `first_frame` is false, the event log holds one clock reset and the
origin is the timer value of that reset; the same holds after any further
ticks, whatever the frame reads return; and a tick that starts with
`first_frame` false keeps it false, resets nothing and leaves the origin where
it is. -/
theorem C9_clock_origin_set_once (fuel : Nat) (tb : AVRational) (c : Clock)
    (inp : Bool × Int) (rest : List (Bool × Int)) :
    ((update_tick fuel tb inp (initial_tick_state c)).2.first_frame = false ∧
      count_set_time (update_tick fuel tb inp (initial_tick_state c)).2.events = 1 ∧
      (update_tick fuel tb inp (initial_tick_state c)).2.clock.offset = c.timer c.queries) ∧
    ((run_ticks fuel tb (inp :: rest) (initial_tick_state c)).2.first_frame = false ∧
      count_set_time (run_ticks fuel tb (inp :: rest) (initial_tick_state c)).2.events = 1 ∧
      (run_ticks fuel tb (inp :: rest) (initial_tick_state c)).2.clock.offset
        = c.timer c.queries) ∧
    (∀ (s : TickState) (later : Bool × Int), s.first_frame = false →
      (update_tick fuel tb later s).2.first_frame = false ∧
      count_set_time (update_tick fuel tb later s).2.events = count_set_time s.events ∧
      (update_tick fuel tb later s).2.clock.offset = s.clock.offset) := by
  obtain ⟨u1, u2, u3⟩ := update_tick_first fuel tb inp c
  refine ⟨⟨u1, u2, u3⟩, ?_, fun s later h => update_tick_later fuel tb later s h⟩
  rw [run_ticks]
  split_ifs
  · obtain ⟨v1, v2, v3⟩ := run_ticks_later fuel tb rest _ u1
    exact ⟨v1, by rw [v2, u2], by rw [v3, u3]⟩
  · exact ⟨u1, u2, u3⟩

/-- Instance of C9: a tick with a failed read, started after the clock was
reset at timer value 5, keeps the flag, the single reset and the origin. -/
theorem C9_clock_origin_set_once_witness :
    ((⟨false, ⟨fun _ => 7, 3, 5⟩, [TickEvent.set_time 0]⟩ : TickState).first_frame = false) ∧
    (update_tick 4 tb_30fps (false, 0)
        ⟨false, ⟨fun _ => 7, 3, 5⟩, [TickEvent.set_time 0]⟩).2.first_frame = false ∧
    count_set_time (update_tick 4 tb_30fps (false, 0)
        ⟨false, ⟨fun _ => 7, 3, 5⟩, [TickEvent.set_time 0]⟩).2.events = 1 ∧
    (update_tick 4 tb_30fps (false, 0)
        ⟨false, ⟨fun _ => 7, 3, 5⟩, [TickEvent.set_time 0]⟩).2.clock.offset = 5 :=
  ⟨rfl, (C9_clock_origin_set_once 4 tb_30fps clock_ms (true, 0) []).2.2
    ⟨false, ⟨fun _ => 7, 3, 5⟩, [TickEvent.set_time 0]⟩ (false, 0) rfl⟩

/-! ## The first tick -/

theorem pt_in_seconds_nonpos (pts : Int) (tb : AVRational) (hden : 0 < tb.den)
    (h : pts * tb.num ≤ 0) : pt_in_seconds pts tb ≤ 0 := by
  have hd : (0 : ℚ) ≤ to_double (tb.den : ℚ) :=
    to_double_nonneg _ (by exact_mod_cast hden.le)
  have hprod : to_double (pts : ℚ) * to_double (tb.num : ℚ) ≤ 0 := by
    rcases mul_nonpos_iff.mp h with ⟨hp, hn⟩ | ⟨hp, hn⟩
    · exact mul_nonpos_of_nonneg_of_nonpos
        (to_double_nonneg _ (by exact_mod_cast hp)) (to_double_nonpos _ (by exact_mod_cast hn))
    · exact mul_nonpos_of_nonpos_of_nonneg
        (to_double_nonpos _ (by exact_mod_cast hp)) (to_double_nonneg _ (by exact_mod_cast hn))
  unfold pt_in_seconds ddiv dmul
  exact to_double_nonpos _ (div_nonpos_of_nonpos_of_nonneg (to_double_nonpos _ hprod) hd)

/-- State of the first tick when its pacing loop starts: the flag is cleared,
the clock reads the time elapsed since the reset and no wait has been issued. -/
theorem first_tick_before_pacing (ok : Bool) (c : Clock) :
    (reset_clock_once (report_read ok (initial_tick_state c))).first_frame = false ∧
    reading_at (reset_clock_once (report_read ok (initial_tick_state c))).clock 0
      = c.timer (c.queries + 1) - c.timer c.queries ∧
    waits (reset_clock_once (report_read ok (initial_tick_state c))).events = [] := by
  cases ok <;>
    simp [reset_clock_once, report_read, initial_tick_state, reading_at, glfwSetTime, waits]

theorem first_tick_ready (fuel : Nat) (tb : AVRational) (ok : Bool) (pts : Int) (c : Clock)
    (h : pt_in_seconds pts tb ≤ c.timer (c.queries + 1) - c.timer c.queries) :
    (update_tick (fuel + 1) tb (ok, pts) (initial_tick_state c)).1 = true ∧
    waits (update_tick (fuel + 1) tb (ok, pts) (initial_tick_state c)).2.events = [] := by
  obtain ⟨_, b2, b3⟩ := first_tick_before_pacing ok c
  obtain ⟨q1, _, _, _, q5⟩ := present_if_paced_frame pts
    (pace (pt_in_seconds pts tb) (fuel + 1)
      (reset_clock_once (report_read ok (initial_tick_state c))))
  unfold update_tick
  rw [q1, q5, pace_ready _ fuel _ (by rw [b2]; exact h)]
  exact ⟨rfl, b3⟩

theorem first_tick_waits (fuel : Nat) (tb : AVRational) (ok : Bool) (pts : Int) (c : Clock)
    (h : c.timer (c.queries + 1) - c.timer c.queries < pt_in_seconds pts tb) :
    waits (update_tick (fuel + 1) tb (ok, pts) (initial_tick_state c)).2.events ≠ [] := by
  obtain ⟨_, b2, _⟩ := first_tick_before_pacing ok c
  obtain ⟨_, _, _, _, q5⟩ := present_if_paced_frame pts
    (pace (pt_in_seconds pts tb) (fuel + 1)
      (reset_clock_once (report_read ok (initial_tick_state c))))
  obtain ⟨rest, hrest⟩ := pace_first_wait (pt_in_seconds pts tb) fuel
    (reset_clock_once (report_read ok (initial_tick_state c))) (by rw [b2]; exact h)
  unfold update_tick
  rw [q5, hrest, waits_append]
  simp [waits]

/-- C8 as stated (the first tick presents without any wait, for every
timestamp of the first frame) fails for a first frame with `pts = 30` and the
time-base 1/30: the tick resets the clock, finds the presentation time of 1 s
ahead of the clock (which reads 1/1024 s, then 2/1024 s) and issues a wait of
511/512 s before presenting. -/
theorem C8_first_frame_is_waited_for :
    (update_tick 2 tb_30fps (true, 30) (initial_tick_state clock_first_tick)).2.events
      = [TickEvent.set_time 0, TickEvent.wait (511 / 512), TickEvent.present 30] ∧
    waits (update_tick 2 tb_30fps (true, 30) (initial_tick_state clock_first_tick)).2.events
      ≠ [] := by
  have hpt : pt_in_seconds 30 tb_30fps = 1 := by
    rw [pt_in_seconds_exact 30 tb_30fps exact_time_30_tb_30fps]; norm_num [tb_30fps]
  have hd : dsub 1 (1 / 512) = 511 / 512 := by
    rw [dsub, to_double_of_is_double _ ⟨511, -9, by norm_num, by norm_num⟩]; norm_num
  have hev : (update_tick 2 tb_30fps (true, 30) (initial_tick_state clock_first_tick)).2.events
      = [TickEvent.set_time 0, TickEvent.wait (511 / 512), TickEvent.present 30] := by
    unfold update_tick
    simp only [hpt]
    norm_num [pace, reset_clock_once, report_read, initial_tick_state, glfwGetTime,
      glfwSetTime, clock_first_tick, present_if_paced, hd]
  refine ⟨hev, ?_⟩
  rw [hev]
  simp [waits]

/-- C8, amended: the first tick clears `first_frame`, resets the clock once and
fixes its origin; it presents the frame without any wait exactly when the
presentation time is not later than the clock reading taken right after the
reset (the time elapsed since the reset), which is the case whenever
`pts * num <= 0` for a positive denominator and a timer that does not run
backwards, e.g. for `pts = 0`; a first frame with a later presentation time
is waited for as in any other tick. -/
theorem C8_first_tick_sets_origin_then_paces (fuel : Nat) (tb : AVRational) (ok : Bool)
    (pts : Int) (c : Clock) :
    ((update_tick fuel tb (ok, pts) (initial_tick_state c)).2.first_frame = false ∧
      count_set_time (update_tick fuel tb (ok, pts) (initial_tick_state c)).2.events = 1 ∧
      (update_tick fuel tb (ok, pts) (initial_tick_state c)).2.clock.offset
        = c.timer c.queries) ∧
    (pt_in_seconds pts tb ≤ c.timer (c.queries + 1) - c.timer c.queries →
      (update_tick (fuel + 1) tb (ok, pts) (initial_tick_state c)).1 = true ∧
      waits (update_tick (fuel + 1) tb (ok, pts) (initial_tick_state c)).2.events = []) ∧
    (c.timer (c.queries + 1) - c.timer c.queries < pt_in_seconds pts tb →
      waits (update_tick (fuel + 1) tb (ok, pts) (initial_tick_state c)).2.events ≠ []) ∧
    (0 < tb.den → pts * tb.num ≤ 0 → c.timer c.queries ≤ c.timer (c.queries + 1) →
      (update_tick (fuel + 1) tb (ok, pts) (initial_tick_state c)).1 = true ∧
      waits (update_tick (fuel + 1) tb (ok, pts) (initial_tick_state c)).2.events = []) := by
  refine ⟨update_tick_first fuel tb (ok, pts) c, first_tick_ready fuel tb ok pts c,
    first_tick_waits fuel tb ok pts c, ?_⟩
  intro hden hneg hmono
  apply first_tick_ready
  have := pt_in_seconds_nonpos pts tb hden hneg
  linarith

/-- Instances of C8 (amended) on a clock that reads 1/1024 s right after the
reset: a first frame with `pts = 0` is presented without wait, a first
frame with `pts = 30` (one second) is waited for. -/
theorem C8_first_tick_sets_origin_then_paces_witness :
    (0 < tb_30fps.den ∧ (0 : Int) * tb_30fps.num ≤ 0 ∧
      clock_first_tick.timer clock_first_tick.queries
        ≤ clock_first_tick.timer (clock_first_tick.queries + 1) ∧
      clock_first_tick.timer (clock_first_tick.queries + 1)
        - clock_first_tick.timer clock_first_tick.queries < pt_in_seconds 30 tb_30fps) ∧
    ((update_tick 1 tb_30fps (true, 0) (initial_tick_state clock_first_tick)).1 = true ∧
      waits (update_tick 1 tb_30fps (true, 0) (initial_tick_state clock_first_tick)).2.events
        = []) ∧
    waits (update_tick 1 tb_30fps (true, 30) (initial_tick_state clock_first_tick)).2.events
      ≠ [] := by
  have hpt : pt_in_seconds 30 tb_30fps = 1 := by
    rw [pt_in_seconds_exact 30 tb_30fps exact_time_30_tb_30fps]; norm_num [tb_30fps]
  have hmono : clock_first_tick.timer clock_first_tick.queries
      ≤ clock_first_tick.timer (clock_first_tick.queries + 1) := by
    norm_num [clock_first_tick]
  have hlt : clock_first_tick.timer (clock_first_tick.queries + 1)
      - clock_first_tick.timer clock_first_tick.queries < pt_in_seconds 30 tb_30fps := by
    rw [hpt]; norm_num [clock_first_tick]
  exact ⟨⟨by decide, by decide, hmono, hlt⟩,
    (C8_first_tick_sets_origin_then_paces 0 tb_30fps true 0 clock_first_tick).2.2.2
      (by decide) (by decide) hmono,
    (C8_first_tick_sets_origin_then_paces 0 tb_30fps true 30 clock_first_tick).2.2.1 hlt⟩

/-! ## Errors in the decode loop -/

theorem decode_loop_send_fails {σ : Type} (d : Decoder σ) (vsi : Int) (p : AVPacket)
    (ps : List AVPacket) (s : LoopState σ) (hp : p.stream_index = vsi)
    (h : (d.send_packet s.dec p).1 < 0) :
    decode_loop d vsi (p :: ps) s
      = (false, { dec := (d.send_packet s.dec p).2, frame := s.frame,
                  calls := s.calls ++ [DecoderCall.send p (d.send_packet s.dec p).1] }) := by
  rw [decode_loop]
  simp only [hp, ne_eq, not_true_eq_false, if_false, h, if_true]

theorem decode_loop_receive_fails {σ : Type} (d : Decoder σ) (vsi : Int) (p : AVPacket)
    (ps : List AVPacket) (s : LoopState σ) (hp : p.stream_index = vsi)
    (hs : 0 ≤ (d.send_packet s.dec p).1)
    (h : (d.receive_frame (d.send_packet s.dec p).2 s.frame).1 < 0)
    (h1 : (d.receive_frame (d.send_packet s.dec p).2 s.frame).1 ≠ AVERROR_EAGAIN)
    (h2 : (d.receive_frame (d.send_packet s.dec p).2 s.frame).1 ≠ AVERROR_EOF) :
    decode_loop d vsi (p :: ps) s
      = (false, { dec := (d.receive_frame (d.send_packet s.dec p).2 s.frame).2.2,
                  frame := (d.receive_frame (d.send_packet s.dec p).2 s.frame).2.1,
                  calls := s.calls ++ [DecoderCall.send p (d.send_packet s.dec p).1] ++
                    [DecoderCall.receive
                      (d.receive_frame (d.send_packet s.dec p).2 s.frame).1] }) := by
  rw [decode_loop]
  simp only [hp, ne_eq, not_true_eq_false, if_false, not_lt.mpr hs, h1, h2, or_self, h,
    if_true]

theorem decode_loop_receive_continues {σ : Type} (d : Decoder σ) (vsi : Int) (p : AVPacket)
    (ps : List AVPacket) (s : LoopState σ) (hp : p.stream_index = vsi)
    (hs : 0 ≤ (d.send_packet s.dec p).1)
    (h : (d.receive_frame (d.send_packet s.dec p).2 s.frame).1 = AVERROR_EAGAIN ∨
      (d.receive_frame (d.send_packet s.dec p).2 s.frame).1 = AVERROR_EOF ∨
      0 ≤ (d.receive_frame (d.send_packet s.dec p).2 s.frame).1) :
    decode_loop d vsi (p :: ps) s
      = decode_loop d vsi ps
          { dec := (d.receive_frame (d.send_packet s.dec p).2 s.frame).2.2,
            frame := (d.receive_frame (d.send_packet s.dec p).2 s.frame).2.1,
            calls := s.calls ++ [DecoderCall.send p (d.send_packet s.dec p).1] ++
              [DecoderCall.receive (d.receive_frame (d.send_packet s.dec p).2 s.frame).1] } := by
  rw [decode_loop]
  simp only [hp, ne_eq, not_true_eq_false, if_false, not_lt.mpr hs]
  rcases h with h | h | h
  · simp only [h, true_or, if_true]
  · simp only [h, or_true, if_true]
  · simp only [not_lt.mpr h, if_false, ite_self]

/-- Once the loop has been left through `return false`, the packets that would
have followed play no part. -/
theorem decode_loop_failed_prefix {σ : Type} (d : Decoder σ) (vsi : Int)
    (pre post : List AVPacket) :
    ∀ s : LoopState σ, (decode_loop d vsi pre s).1 = false →
      decode_loop d vsi (pre ++ post) s = decode_loop d vsi pre s := by
  induction pre with
  | nil => intro s h; simp [decode_loop] at h
  | cons p ps ih =>
    intro s h
    rw [List.cons_append]
    rw [decode_loop] at h ⊢
    rw [decode_loop]
    dsimp only at h ⊢
    split_ifs at h ⊢
    all_goals first
      | rfl
      | exact ih _ h

theorem load_frame_decode_failed {σ : Type} (env : LoadEnv σ)
    (h : (decode_loop env.decoder
        (scan_streams env.streams 0 ⟨-1, env.width0, env.height0⟩).video_stream_index
        env.packets { dec := env.decoder_init, frame := empty_frame, calls := [] }).1 = false) :
    (load_frame env).ok = false ∧ (load_frame env).data = none := by
  unfold load_frame
  simp only [h]
  split_ifs <;> first | exact ⟨rfl, rfl⟩ | simp_all

/-- C11 (a decode error is fatal to the whole read): when sending a packet of
the selected stream fails, or receiving fails with a negative response other
than `AVERROR(EAGAIN)` and `AVERROR_EOF`, the loop is left with `false` right
after the failing call, whatever packets would follow, and `load_frame`
returns false without a buffer; after `AVERROR(EAGAIN)`, `AVERROR_EOF` or a
received frame the loop goes on with the next packet. -/
theorem C11_decode_error_is_fatal {σ : Type} (d : Decoder σ) (vsi : Int) :
    (∀ (p : AVPacket) (ps : List AVPacket) (s : LoopState σ), p.stream_index = vsi →
        (d.send_packet s.dec p).1 < 0 →
        decode_loop d vsi (p :: ps) s
          = (false, { dec := (d.send_packet s.dec p).2, frame := s.frame,
                      calls := s.calls ++ [DecoderCall.send p (d.send_packet s.dec p).1] })) ∧
    (∀ (p : AVPacket) (ps : List AVPacket) (s : LoopState σ), p.stream_index = vsi →
        0 ≤ (d.send_packet s.dec p).1 →
        (d.receive_frame (d.send_packet s.dec p).2 s.frame).1 < 0 →
        (d.receive_frame (d.send_packet s.dec p).2 s.frame).1 ≠ AVERROR_EAGAIN →
        (d.receive_frame (d.send_packet s.dec p).2 s.frame).1 ≠ AVERROR_EOF →
        decode_loop d vsi (p :: ps) s
          = (false, { dec := (d.receive_frame (d.send_packet s.dec p).2 s.frame).2.2,
                      frame := (d.receive_frame (d.send_packet s.dec p).2 s.frame).2.1,
                      calls := s.calls ++ [DecoderCall.send p (d.send_packet s.dec p).1] ++
                        [DecoderCall.receive
                          (d.receive_frame (d.send_packet s.dec p).2 s.frame).1] })) ∧
    (∀ (p : AVPacket) (ps : List AVPacket) (s : LoopState σ), p.stream_index = vsi →
        0 ≤ (d.send_packet s.dec p).1 →
        ((d.receive_frame (d.send_packet s.dec p).2 s.frame).1 = AVERROR_EAGAIN ∨
          (d.receive_frame (d.send_packet s.dec p).2 s.frame).1 = AVERROR_EOF ∨
          0 ≤ (d.receive_frame (d.send_packet s.dec p).2 s.frame).1) →
        decode_loop d vsi (p :: ps) s
          = decode_loop d vsi ps
              { dec := (d.receive_frame (d.send_packet s.dec p).2 s.frame).2.2,
                frame := (d.receive_frame (d.send_packet s.dec p).2 s.frame).2.1,
                calls := s.calls ++ [DecoderCall.send p (d.send_packet s.dec p).1] ++
                  [DecoderCall.receive
                    (d.receive_frame (d.send_packet s.dec p).2 s.frame).1] }) ∧
    (∀ (pre post : List AVPacket) (s : LoopState σ), (decode_loop d vsi pre s).1 = false →
        decode_loop d vsi (pre ++ post) s = decode_loop d vsi pre s) ∧
    (∀ env : LoadEnv σ,
        (decode_loop env.decoder
          (scan_streams env.streams 0 ⟨-1, env.width0, env.height0⟩).video_stream_index
          env.packets { dec := env.decoder_init, frame := empty_frame, calls := [] }).1 = false →
        (load_frame env).ok = false ∧ (load_frame env).data = none) :=
  ⟨decode_loop_send_fails d vsi, decode_loop_receive_fails d vsi,
    decode_loop_receive_continues d vsi, decode_loop_failed_prefix d vsi,
    load_frame_decode_failed⟩

/-- Instances of C11 with `picky_decoder` and stream 0 selected: a rejected
packet (payload 0) ends the loop after the send, a packet that fails to
decode (payload 2) ends it after the receive, in both cases with the packet
that follows untouched; a packet answered with `AVERROR(EAGAIN)` (payload 1)
lets the loop go on. -/
theorem C11_decode_error_is_fatal_witness :
    ((⟨0, 0⟩ : AVPacket).stream_index = 0 ∧
      (picky_decoder.send_packet 7 ⟨0, 0⟩).1 < 0 ∧
      0 ≤ (picky_decoder.send_packet 7 ⟨0, 2⟩).1 ∧
      (picky_decoder.receive_frame (picky_decoder.send_packet 7 ⟨0, 2⟩).2 empty_frame).1 < 0) ∧
    decode_loop picky_decoder 0 [⟨0, 0⟩, ⟨0, 9⟩] ⟨7, empty_frame, []⟩
      = (false, ⟨7, empty_frame, [DecoderCall.send ⟨0, 0⟩ (-1094995529)]⟩) ∧
    (decode_loop picky_decoder 0 [⟨0, 2⟩, ⟨0, 9⟩] ⟨7, empty_frame, []⟩).1 = false ∧
    (decode_loop picky_decoder 0 [⟨0, 2⟩, ⟨0, 9⟩] ⟨7, empty_frame, []⟩).2.calls
      = [DecoderCall.send ⟨0, 2⟩ 0, DecoderCall.receive (-5)] ∧
    decode_loop picky_decoder 0 [⟨0, 1⟩, ⟨0, 9⟩] ⟨7, empty_frame, []⟩
      = decode_loop picky_decoder 0 [⟨0, 9⟩]
          ⟨1, empty_frame, [DecoderCall.send ⟨0, 1⟩ 0, DecoderCall.receive AVERROR_EAGAIN]⟩ := by
  have h := C11_decode_error_is_fatal picky_decoder 0
  have h1 := h.1 ⟨0, 0⟩ [⟨0, 9⟩] ⟨7, empty_frame, []⟩ rfl (by decide)
  have h2 := h.2.1 ⟨0, 2⟩ [⟨0, 9⟩] ⟨7, empty_frame, []⟩ rfl (by decide) (by decide)
    (by decide) (by decide)
  have h3 := h.2.2.1 ⟨0, 1⟩ [⟨0, 9⟩] ⟨7, empty_frame, []⟩ rfl (by decide)
    (Or.inl (by decide))
  refine ⟨⟨rfl, by decide, by decide, by decide⟩, h1, ?_, ?_, h3⟩
  · rw [h2]
  · rw [h2]; rfl

/-! ## Frames received by the decode loop -/

theorem sends_append (a b : List DecoderCall) : sends (a ++ b) = sends a + sends b := by
  simp [sends, List.filter_append]

theorem receives_append (a b : List DecoderCall) :
    receives (a ++ b) = receives a + receives b := by
  simp [receives, List.filter_append]

theorem frames_received_append (a b : List DecoderCall) :
    frames_received (a ++ b) = frames_received a + frames_received b := by
  simp [frames_received, List.filter_append]

theorem frames_received_le_receives (l : List DecoderCall) :
    frames_received l ≤ receives l := by
  induction l with
  | nil => simp [frames_received, receives]
  | cons c l ih =>
    have h1 := frames_received_append [c] l
    have h2 := receives_append [c] l
    simp only [List.singleton_append] at h1 h2
    rw [h1, h2]
    have hc : frames_received [c] ≤ receives [c] := by
      cases c with
      | send p r => simp [frames_received, receives]
      | receive r =>
        by_cases hr : 0 ≤ r <;> simp [frames_received, receives, hr]
    omega

theorem video_packets_cons_of_eq (vsi : Int) (p : AVPacket) (ps : List AVPacket)
    (h : p.stream_index = vsi) :
    video_packets vsi (p :: ps) = video_packets vsi ps + 1 := by
  simp [video_packets, h]

theorem video_packets_cons_of_ne (vsi : Int) (p : AVPacket) (ps : List AVPacket)
    (h : p.stream_index ≠ vsi) :
    video_packets vsi (p :: ps) = video_packets vsi ps := by
  simp [video_packets, h]

/-- The calls the decode loop adds to the log: never more receives than sends,
never more sends than packets of the selected stream, and one receive per such
packet when the loop runs to its end. -/
theorem decode_loop_calls {σ : Type} (d : Decoder σ) (vsi : Int) (pkts : List AVPacket) :
    ∀ s : LoopState σ, ∃ new,
      (decode_loop d vsi pkts s).2.calls = s.calls ++ new ∧
      receives new ≤ sends new ∧ sends new ≤ video_packets vsi pkts ∧
      ((decode_loop d vsi pkts s).1 = true → receives new = video_packets vsi pkts) := by
  induction pkts with
  | nil =>
    intro s
    exact ⟨[], by simp [decode_loop], le_refl _, by simp [sends], fun _ => by
      simp [receives, video_packets]⟩
  | cons p ps ih =>
    intro s
    by_cases hp : p.stream_index = vsi
    · rw [video_packets_cons_of_eq vsi p ps hp]
      by_cases hs : (d.send_packet s.dec p).1 < 0
      · rw [decode_loop_send_fails d vsi p ps s hp hs]
        refine ⟨[DecoderCall.send p (d.send_packet s.dec p).1], rfl, ?_, ?_, ?_⟩
        · simp [sends, receives]
        · simp [sends]
        · intro h; simp at h
      · have hs' : 0 ≤ (d.send_packet s.dec p).1 := not_lt.mp hs
        by_cases hc : (d.receive_frame (d.send_packet s.dec p).2 s.frame).1 = AVERROR_EAGAIN ∨
            (d.receive_frame (d.send_packet s.dec p).2 s.frame).1 = AVERROR_EOF ∨
            0 ≤ (d.receive_frame (d.send_packet s.dec p).2 s.frame).1
        · rw [decode_loop_receive_continues d vsi p ps s hp hs' hc]
          obtain ⟨new, h1, h2, h3, h4⟩ := ih
            { dec := (d.receive_frame (d.send_packet s.dec p).2 s.frame).2.2,
              frame := (d.receive_frame (d.send_packet s.dec p).2 s.frame).2.1,
              calls := s.calls ++ [DecoderCall.send p (d.send_packet s.dec p).1] ++
                [DecoderCall.receive (d.receive_frame (d.send_packet s.dec p).2 s.frame).1] }
          refine ⟨[DecoderCall.send p (d.send_packet s.dec p).1,
            DecoderCall.receive (d.receive_frame (d.send_packet s.dec p).2 s.frame).1] ++ new,
            ?_, ?_, ?_, ?_⟩
          · rw [h1]; simp
          · rw [sends_append, receives_append]
            have : receives [DecoderCall.send p (d.send_packet s.dec p).1,
                DecoderCall.receive (d.receive_frame (d.send_packet s.dec p).2 s.frame).1] = 1 := by
              simp [receives]
            have : sends [DecoderCall.send p (d.send_packet s.dec p).1,
                DecoderCall.receive (d.receive_frame (d.send_packet s.dec p).2 s.frame).1] = 1 := by
              simp [sends]
            omega
          · rw [sends_append]
            have : sends [DecoderCall.send p (d.send_packet s.dec p).1,
                DecoderCall.receive (d.receive_frame (d.send_packet s.dec p).2 s.frame).1] = 1 := by
              simp [sends]
            omega
          · intro h
            rw [receives_append, h4 h]
            have : receives [DecoderCall.send p (d.send_packet s.dec p).1,
                DecoderCall.receive (d.receive_frame (d.send_packet s.dec p).2 s.frame).1] = 1 := by
              simp [receives]
            omega
        · have hc' := not_or.mp hc
          have hc'' := not_or.mp hc'.2
          rw [decode_loop_receive_fails d vsi p ps s hp hs' (not_le.mp hc''.2) hc'.1 hc''.1]
          refine ⟨[DecoderCall.send p (d.send_packet s.dec p).1,
            DecoderCall.receive (d.receive_frame (d.send_packet s.dec p).2 s.frame).1],
            by simp, ?_, ?_, ?_⟩
          · simp [sends, receives]
          · simp [sends]
          · intro h; simp at h
    · rw [video_packets_cons_of_ne vsi p ps hp, decode_loop_skip d vsi p ps s hp]
      exact ih s

/-- With a decoder that makes `k >= 1` frames available after every packet the
loop receives one frame per packet of the selected stream and leaves the other
`k - 1` waiting in the decoder. -/
theorem decode_loop_queue_decoder (k : Nat) (hk : 1 ≤ k) (vsi : Int) (pkts : List AVPacket) :
    ∀ (m : Nat) (f : AVFrame) (calls : List DecoderCall),
      (decode_loop (queue_decoder k) vsi pkts ⟨m, f, calls⟩).1 = true ∧
      (decode_loop (queue_decoder k) vsi pkts ⟨m, f, calls⟩).2.dec
        = m + (k - 1) * video_packets vsi pkts ∧
      frames_received (decode_loop (queue_decoder k) vsi pkts ⟨m, f, calls⟩).2.calls
        = frames_received calls + video_packets vsi pkts := by
  induction pkts with
  | nil => intro m f calls; simp [decode_loop, video_packets]
  | cons p ps ih =>
    intro m f calls
    by_cases hp : p.stream_index = vsi
    · have hne : m + k ≠ 0 := by omega
      have hstep : decode_loop (queue_decoder k) vsi (p :: ps) ⟨m, f, calls⟩
          = decode_loop (queue_decoder k) vsi ps
              ⟨m + k - 1, frame_1x1,
                calls ++ [DecoderCall.send p 0] ++ [DecoderCall.receive 0]⟩ := by
        rw [decode_loop_receive_continues (queue_decoder k) vsi p ps ⟨m, f, calls⟩ hp
          (by simp [queue_decoder]) (Or.inr (Or.inr (by simp [queue_decoder, hne])))]
        simp [queue_decoder, hne]
      obtain ⟨h1, h2, h3⟩ := ih (m + k - 1) frame_1x1
        (calls ++ [DecoderCall.send p 0] ++ [DecoderCall.receive 0])
      rw [hstep, video_packets_cons_of_eq vsi p ps hp]
      refine ⟨h1, ?_, ?_⟩
      · rw [h2]
        obtain ⟨j, rfl⟩ : ∃ j, k = j + 1 := ⟨k - 1, by omega⟩
        simp only [Nat.add_sub_cancel]
        rw [Nat.mul_add, Nat.mul_one]
        omega
      · rw [h3, frames_received_append, frames_received_append]
        simp [frames_received]
        omega
    · rw [decode_loop_skip _ vsi p ps _ hp, video_packets_cons_of_ne vsi p ps hp]
      exact ih m f calls

/-- With a decoder that never makes a frame available nothing is received and
nothing is left in the decoder. -/
theorem decode_loop_queue_decoder_zero (vsi : Int) (pkts : List AVPacket) :
    ∀ (f : AVFrame) (calls : List DecoderCall),
      (decode_loop (queue_decoder 0) vsi pkts ⟨0, f, calls⟩).1 = true ∧
      (decode_loop (queue_decoder 0) vsi pkts ⟨0, f, calls⟩).2.dec = 0 ∧
      frames_received (decode_loop (queue_decoder 0) vsi pkts ⟨0, f, calls⟩).2.calls
        = frames_received calls := by
  induction pkts with
  | nil => intro f calls; simp [decode_loop]
  | cons p ps ih =>
    intro f calls
    by_cases hp : p.stream_index = vsi
    · have hstep : decode_loop (queue_decoder 0) vsi (p :: ps) ⟨0, f, calls⟩
          = decode_loop (queue_decoder 0) vsi ps
              ⟨0, f, calls ++ [DecoderCall.send p 0] ++ [DecoderCall.receive AVERROR_EAGAIN]⟩ := by
        rw [decode_loop_receive_continues (queue_decoder 0) vsi p ps ⟨0, f, calls⟩ hp
          (by simp [queue_decoder]) (Or.inl (by simp [queue_decoder]))]
        simp [queue_decoder]
      obtain ⟨h1, h2, h3⟩ := ih f
        (calls ++ [DecoderCall.send p 0] ++ [DecoderCall.receive AVERROR_EAGAIN])
      rw [hstep]
      refine ⟨h1, h2, ?_⟩
      rw [h3, frames_received_append, frames_received_append]
      simp [frames_received, AVERROR_EAGAIN]
    · rw [decode_loop_skip _ vsi p ps _ hp]
      exact ih f calls

/-- C12 as stated (frames are received until the decoder reports
need-more-input, so all `k` frames available after a packet are received)
fails for a decoder that makes two frames available after a packet: for the
single packet of the selected stream the loop makes one send and one receive,
so one frame is received and the second is still waiting in the decoder when
the loop is over. -/
theorem C12_second_frame_is_left_in_decoder :
    (decode_loop (queue_decoder 2) 0 [⟨0, 1⟩] ⟨0, empty_frame, []⟩).1 = true ∧
    (decode_loop (queue_decoder 2) 0 [⟨0, 1⟩] ⟨0, empty_frame, []⟩).2.calls
      = [DecoderCall.send ⟨0, 1⟩ 0, DecoderCall.receive 0] ∧
    frames_received (decode_loop (queue_decoder 2) 0 [⟨0, 1⟩] ⟨0, empty_frame, []⟩).2.calls
      = 1 ∧
    (decode_loop (queue_decoder 2) 0 [⟨0, 1⟩] ⟨0, empty_frame, []⟩).2.dec = 1 ∧
    (load_frame
      { env_of streams_mixed [⟨2, 1⟩] with decoder := queue_decoder 2 }).calls
      = [DecoderCall.send ⟨2, 1⟩ 0, DecoderCall.receive 0] := by
  refine ⟨rfl, rfl, rfl, rfl, rfl⟩

/-- C12, amended: the decode loop attempts one receive after each accepted
packet of the selected stream and has no drain loop.  For every decoder and
packet sequence the calls it adds hold no more receives than sends and no
more sends than packets of the selected stream, with exactly one receive per
such packet when the loop runs to its end, so at most one frame is received
per packet.  A decoder that makes `k` frames available after every packet has
all of them received when `k <= 1` (none left in the decoder); for `k >= 1`
one frame per packet is received and `k - 1` per packet stay in the decoder. -/
theorem C12_one_receive_per_packet {σ : Type} (d : Decoder σ) (vsi : Int)
    (pkts : List AVPacket) (s : LoopState σ) :
    (∃ new, (decode_loop d vsi pkts s).2.calls = s.calls ++ new ∧
        frames_received new ≤ receives new ∧
        receives new ≤ sends new ∧ sends new ≤ video_packets vsi pkts ∧
        ((decode_loop d vsi pkts s).1 = true → receives new = video_packets vsi pkts)) ∧
    (∀ (k m : Nat) (f : AVFrame) (calls : List DecoderCall), 1 ≤ k →
        (decode_loop (queue_decoder k) vsi pkts ⟨m, f, calls⟩).1 = true ∧
        (decode_loop (queue_decoder k) vsi pkts ⟨m, f, calls⟩).2.dec
          = m + (k - 1) * video_packets vsi pkts ∧
        frames_received (decode_loop (queue_decoder k) vsi pkts ⟨m, f, calls⟩).2.calls
          = frames_received calls + video_packets vsi pkts) ∧
    (∀ (k : Nat) (f : AVFrame), k ≤ 1 →
        (decode_loop (queue_decoder k) vsi pkts ⟨0, f, []⟩).2.dec = 0 ∧
        frames_received (decode_loop (queue_decoder k) vsi pkts ⟨0, f, []⟩).2.calls
          = k * video_packets vsi pkts) := by
  refine ⟨?_, fun k m f calls hk => decode_loop_queue_decoder k hk vsi pkts m f calls, ?_⟩
  · obtain ⟨new, h1, h2, h3, h4⟩ := decode_loop_calls d vsi pkts s
    exact ⟨new, h1, frames_received_le_receives new, h2, h3, h4⟩
  · intro k f hk
    rcases Nat.le_one_iff_eq_zero_or_eq_one.mp hk with rfl | rfl
    · obtain ⟨_, h2, h3⟩ := decode_loop_queue_decoder_zero vsi pkts f []
      exact ⟨h2, by rw [h3]; simp [frames_received]⟩
    · obtain ⟨_, h2, h3⟩ := decode_loop_queue_decoder 1 (le_refl 1) vsi pkts 0 f []
      exact ⟨by rw [h2]; simp, by rw [h3]; simp [frames_received]⟩

/-- Instances of C12 (amended) for three packets, two of them of the selected
stream 0: with two frames per packet two frames are received and two stay in
the decoder; with one frame per packet both are received and none stays. -/
theorem C12_one_receive_per_packet_witness :
    ((1 : Nat) ≤ 2 ∧ (1 : Nat) ≤ 1) ∧
    ((decode_loop (queue_decoder 2) 0 [⟨0, 1⟩, ⟨3, 2⟩, ⟨0, 3⟩] ⟨0, empty_frame, []⟩).1 = true ∧
      (decode_loop (queue_decoder 2) 0 [⟨0, 1⟩, ⟨3, 2⟩, ⟨0, 3⟩] ⟨0, empty_frame, []⟩).2.dec
        = 0 + (2 - 1) * video_packets 0 [⟨0, 1⟩, ⟨3, 2⟩, ⟨0, 3⟩] ∧
      frames_received
          (decode_loop (queue_decoder 2) 0 [⟨0, 1⟩, ⟨3, 2⟩, ⟨0, 3⟩] ⟨0, empty_frame, []⟩).2.calls
        = frames_received [] + video_packets 0 [⟨0, 1⟩, ⟨3, 2⟩, ⟨0, 3⟩]) ∧
    ((decode_loop (queue_decoder 1) 0 [⟨0, 1⟩, ⟨3, 2⟩, ⟨0, 3⟩] ⟨0, empty_frame, []⟩).2.dec = 0 ∧
      frames_received
          (decode_loop (queue_decoder 1) 0 [⟨0, 1⟩, ⟨3, 2⟩, ⟨0, 3⟩] ⟨0, empty_frame, []⟩).2.calls
        = 1 * video_packets 0 [⟨0, 1⟩, ⟨3, 2⟩, ⟨0, 3⟩]) ∧
    video_packets 0 [⟨0, 1⟩, ⟨3, 2⟩, ⟨0, 3⟩] = 2 :=
  ⟨⟨by decide, by decide⟩,
    (C12_one_receive_per_packet picky_decoder 0 [⟨0, 1⟩, ⟨3, 2⟩, ⟨0, 3⟩]
      ⟨0, empty_frame, []⟩).2.1 2 0 empty_frame [] (by decide),
    (C12_one_receive_per_packet picky_decoder 0 [⟨0, 1⟩, ⟨3, 2⟩, ⟨0, 3⟩]
      ⟨0, empty_frame, []⟩).2.2 1 empty_frame (by decide),
    by decide⟩

/-! ## Termination callback of `Application` -/

theorem invocations_append (fn : Nat) (a b : List AppEvent) :
    invocations fn (a ++ b) = invocations fn a + invocations fn b := by
  simp [invocations, List.count_append]

/-- The destructor calls no callback. -/
theorem destruct_invocations (fn : Nat) (a : Application) :
    invocations fn a.destruct.events = invocations fn a.events := by
  rw [Application.destruct, invocations_append]
  simp [invocations]

/-- A callable that is registered neither for start nor for update is never
called, whatever else is done with the application: registering it with
`OnTerminate` has no effect on what is called. -/
theorem apply_keeps_uncalled (fn : Nat) (op : AppOp) (a : Application)
    (hop : registers_for_start_or_update fn op = false)
    (h : a.m_on_start_callback ≠ some fn ∧ a.m_on_update_callback ≠ some fn ∧
      invocations fn a.events = 0) :
    (a.apply op).m_on_start_callback ≠ some fn ∧
    (a.apply op).m_on_update_callback ≠ some fn ∧
    invocations fn (a.apply op).events = 0 := by
  obtain ⟨st, up, te, ex, ev⟩ := a
  cases ex with
  | true => simpa [Application.apply] using h
  | false =>
    cases op with
    | OnStart g =>
      simp_all [Application.apply, Application.OnStart, registers_for_start_or_update]
    | OnUpdate g =>
      simp_all [Application.apply, Application.OnUpdate, registers_for_start_or_update]
    | OnTerminate g => simp_all [Application.apply, Application.OnTerminate]
    | Init w g =>
      cases w <;> cases g <;> cases st <;>
        simp_all [Application.apply, Application.Init, invocations, List.count_append]
      rw [List.count_eq_zero]
      intro hmem
      simp at hmem
      exact h.1 hmem.symm
    | Tick =>
      cases up <;>
        simp_all [Application.apply, Application.Tick, invocations, List.count_append]
      rw [List.count_eq_zero]
      intro hmem
      simp at hmem
      exact h.2.1 hmem.symm
    | Poll => simp_all [Application.apply, Application.Poll, invocations, List.count_append]

theorem session_never_calls_unregistered (fn : Nat) (glfw_init_ok : Bool) (ops : List AppOp)
    (hops : ∀ op ∈ ops, registers_for_start_or_update fn op = false) :
    invocations fn (app_session glfw_init_ok ops).events = 0 := by
  have hfold : ∀ (l : List AppOp) (a : Application),
      (∀ op ∈ l, registers_for_start_or_update fn op = false) →
      (a.m_on_start_callback ≠ some fn ∧ a.m_on_update_callback ≠ some fn ∧
        invocations fn a.events = 0) →
      invocations fn (l.foldl (fun a op => a.apply op) a).events = 0 := by
    intro l
    induction l with
    | nil => intro a _ h; exact h.2.2
    | cons op l ih =>
      intro a hl h
      exact ih _ (fun o ho => hl o (List.mem_cons_of_mem _ ho))
        (apply_keeps_uncalled fn op a (hl op (List.mem_cons_self _ _)) h)
  have hinit : (Application.construct glfw_init_ok).m_on_start_callback ≠ some fn ∧
      (Application.construct glfw_init_ok).m_on_update_callback ≠ some fn ∧
      invocations fn (Application.construct glfw_init_ok).events = 0 := by
    cases glfw_init_ok <;> simp [Application.construct, invocations]
  have hrun := hfold ops _ hops hinit
  unfold app_session
  simp only
  split_ifs
  · exact hrun
  · rw [destruct_invocations]; exact hrun

/-- C13 (a function registered with `OnTerminate` is called when the
application is destroyed), evaluated on the session constructor,
`OnTerminate(f)`, destructor: the destructor destroys the window and
terminates GLFW and the registered callable `f` (number 7) is never called.
The destructor calls no callback in any state, while a callable
registered with `OnStart` is called by `Init`. -/
theorem C13_terminate_callback_never_called :
    (app_session true [AppOp.OnTerminate (some 7)]).m_on_terminate_callback = some 7 ∧
    (app_session true [AppOp.OnTerminate (some 7)]).events
      = [AppEvent.window_hints, AppEvent.destroy_window, AppEvent.glfw_terminate] ∧
    invocations 7 (app_session true [AppOp.OnTerminate (some 7)]).events = 0 ∧
    (∀ (fn : Nat) (a : Application),
      invocations fn a.destruct.events = invocations fn a.events) ∧
    invocations 7 (app_session true [AppOp.OnStart (some 7), AppOp.Init true true]).events
      = 1 := by
  refine ⟨by decide, by decide, by decide, destruct_invocations, by decide⟩

/-! ## The sphere mesh -/

theorem sector_indices_bound (lat_count i k1 k2 x : Nat) (hk : k1 ≤ k2)
    (hx : x ∈ sector_indices lat_count i k1 k2) : x ≤ k2 + 1 := by
  unfold sector_indices at hx
  split_ifs at hx <;> simp at hx <;> omega

theorem stack_indices_bound (lat_count i : Nat) :
    ∀ n k1 k2 x, k1 ≤ k2 → x ∈ stack_indices lat_count i n k1 k2 → x ≤ k2 + n := by
  intro n
  induction n with
  | zero => intro k1 k2 x _ hx; simp [stack_indices] at hx
  | succ n ih =>
    intro k1 k2 x hk hx
    rw [stack_indices, List.mem_append] at hx
    rcases hx with hx | hx
    · have := sector_indices_bound lat_count i k1 k2 x hk hx
      omega
    · have := ih (k1 + 1) (k2 + 1) x (by omega) hx
      omega

theorem grid_length {α : Type} (g : Nat → Nat → α) (m : Nat) :
    ∀ n, ((List.range n).flatMap (fun i => (List.range m).map (fun j => g i j))).length
      = n * m := by
  intro n
  induction n with
  | zero => simp
  | succ n ih =>
    rw [List.range_succ, List.flatMap_append, List.length_append, ih]
    simp [Nat.succ_mul]

/-- C14 (every emitted index is a valid vertex index): for `lon_count >= 1`
and `lat_count >= 1` every element of the index list of `generate_uvspehre` is
below `(lat_count + 1) * (lon_count + 1)`, which is the number of vertices
generated. -/
theorem C14_indices_are_valid_vertices {V T : Type} (vertex : Nat → Nat → V)
    (tex_coord : Nat → Nat → T) (lon_count lat_count : Nat)
    (_hlon : 1 ≤ lon_count) (_hlat : 1 ≤ lat_count) :
    (∀ x ∈ (generate_uvspehre vertex tex_coord lon_count lat_count).indices,
        x < (lat_count + 1) * (lon_count + 1)) ∧
    (generate_uvspehre vertex tex_coord lon_count lat_count).vertices.length
      = (lat_count + 1) * (lon_count + 1) := by
  refine ⟨?_, grid_length vertex (lon_count + 1) (lat_count + 1)⟩
  intro x hx
  simp only [generate_uvspehre, List.mem_flatMap, List.mem_range] at hx
  obtain ⟨i, hi, hmem⟩ := hx
  have hb := stack_indices_bound lat_count i lon_count _ _ x (by omega) hmem
  have h1 : (i + 2) * (lon_count + 1) ≤ (lat_count + 1) * (lon_count + 1) :=
    Nat.mul_le_mul_right _ (by omega)
  have h2 : (i + 2) * (lon_count + 1) = i * (lon_count + 1) + 2 * (lon_count + 1) := by ring
  omega

/-- Instance of C14: the mesh of `main`, 32 sectors and 64 stacks; the index
list is not empty. -/
theorem C14_indices_are_valid_vertices_witness :
    ((1 : Nat) ≤ 32 ∧ (1 : Nat) ≤ 64) ∧
    (∀ x ∈ (generate_uvspehre (fun i j => (i, j)) (fun i j => (j, i)) 32 64).indices,
        x < (64 + 1) * (32 + 1)) ∧
    (generate_uvspehre (fun i j => (i, j)) (fun i j => (j, i)) 32 64).vertices.length
      = (64 + 1) * (32 + 1) :=
  ⟨by decide,
    C14_indices_are_valid_vertices (fun i j => (i, j)) (fun i j => (j, i)) 32 64
      (by decide) (by decide)⟩

theorem to_float_of_is_float (x : ℚ) (h : is_float x) : to_float x = x := by
  obtain ⟨m, k, hm, rfl⟩ := h
  unfold to_float
  split_ifs with h0
  · exact h0.symm
  · have h2k : (0 : ℚ) < 2 ^ k := by positivity
    have habs : |(m : ℚ) * 2 ^ k| = |(m : ℚ)| * 2 ^ k := by
      rw [abs_mul, abs_of_pos h2k]
    have hpos : (0 : ℚ) < |(m : ℚ) * 2 ^ k| := abs_pos.mpr h0
    have hlt : |(m : ℚ) * 2 ^ k| < ((2 : ℕ) : ℚ) ^ (24 + k) := by
      rw [habs, zpow_add₀ (by norm_num)]
      have : |(m : ℚ)| < 2 ^ 24 := by exact_mod_cast hm
      have h3 : ((2 : ℕ) : ℚ) ^ (24 : ℤ) = 2 ^ 24 := by norm_num
      rw [h3]
      have h4 : ((2 : ℕ) : ℚ) ^ k = 2 ^ k := by norm_num
      rw [h4]
      exact mul_lt_mul_of_pos_right this h2k
    have hlog : Int.log 2 |(m : ℚ) * 2 ^ k| < 24 + k :=
      (Int.lt_zpow_iff_log_lt (by norm_num) hpos).mp hlt
    set e := Int.log 2 |(m : ℚ) * 2 ^ k| with he
    obtain ⟨j, hj⟩ : ∃ j : ℕ, k = e - 23 + j := ⟨(k - (e - 23)).toNat, by omega⟩
    have hsplit : (2 : ℚ) ^ k = 2 ^ (e - 23) * 2 ^ j := by
      rw [hj, zpow_add₀ (by norm_num)]; simp
    have hpe : (2 : ℚ) ^ (e - 23) ≠ 0 := by positivity
    have hdiv : (m : ℚ) * 2 ^ k / 2 ^ (e - 23) = ((m * 2 ^ j : ℤ) : ℚ) := by
      rw [hsplit]; field_simp; ring
    rw [hdiv, round_half_even_intCast, hsplit]
    push_cast; ring

theorem to_float_zero : to_float 0 = 0 := by simp [to_float]

theorem fsub_self (a : ℚ) : fsub a a = 0 := by simp [fsub, to_float]

theorem vec2_sub_self (a : Vec2) : a.sub a = Vec2.zero := by
  simp [Vec2.sub, Vec2.zero, fsub_self]

theorem drag_inv_step (b : Bool) (e : MouseEvent) (c : MouseState) (p : DragSpec)
    (h : drag_inv b c p)
    (hw : press_allowed b e = true) :
    drag_inv (release_pending b e) (mouse_step e c) (drag_spec_step e p) := by
  obtain ⟨cx, cy, cp, cr, cd, cprev, ci⟩ := c
  obtain ⟨px, py, ph, pr, pa, pd⟩ := p
  cases e with
  | cursor x y =>
    simp_all [drag_inv, mouse_step, mouse_cursor_callback, drag_spec_step, release_pending]
  | button bt action mods =>
    by_cases h1 : action = GLFW_PRESS
    · cases ph <;> cases b <;> cases pa <;>
        simp_all [drag_inv, mouse_step, mouse_button_callback, drag_spec_step,
          release_pending, press_allowed]
    · by_cases h2 : action = GLFW_RELEASE
      · cases ph <;> cases b <;>
          simp_all [drag_inv, mouse_step, mouse_button_callback, drag_spec_step,
            release_pending]
      · simp_all [drag_inv, mouse_step, mouse_button_callback, drag_spec_step,
          release_pending, press_allowed]
  | drag_rotate =>
    cases ph <;> cases pr <;> cases pa <;> cases ci <;> cases b <;>
      simp_all [drag_inv, mouse_step, mouse_drag_rotate, drag_spec_step, release_pending,
        current_pos]

theorem drag_inv_run (evs : List MouseEvent) :
    ∀ (b : Bool) (c : MouseState) (p : DragSpec), drag_inv b c p →
      releases_observed b evs = true →
      ∃ b', drag_inv b' (run_mouse evs c) (run_drag_spec evs p) := by
  induction evs with
  | nil => intro b c p h _; exact ⟨b, h⟩
  | cons e es ih =>
    intro b c p h hw
    rw [releases_observed, Bool.and_eq_true] at hw
    exact ih _ _ _ (drag_inv_step b e c p h hw.1) hw.2

theorem drag_inv_initial : drag_inv false initial_mouse_state initial_drag_spec := by
  simp [drag_inv, initial_mouse_state, initial_drag_spec]

theorem mouse_drag_rotate_first (s : MouseState) (hp : s.mouse_pressed = true)
    (hi : s.is_initial_press = true) :
    (mouse_drag_rotate s).diff = Vec2.zero ∧
    (mouse_drag_rotate s).prev_mouse_pos = current_pos s ∧
    (mouse_drag_rotate s).is_initial_press = false := by
  simp [mouse_drag_rotate, hp, hi, vec2_sub_self]

theorem mouse_drag_rotate_later (s : MouseState) (hp : s.mouse_pressed = true)
    (hi : s.is_initial_press = false) :
    (mouse_drag_rotate s).diff = (current_pos s).sub s.prev_mouse_pos ∧
    (mouse_drag_rotate s).prev_mouse_pos = s.prev_mouse_pos ∧
    (mouse_drag_rotate s).is_initial_press = false := by
  simp [mouse_drag_rotate, hp, hi]

theorem mouse_drag_rotate_released (s : MouseState) (hp : s.mouse_pressed = false)
    (hr : s.mouse_released = true) :
    (mouse_drag_rotate s).diff = Vec2.zero ∧
    (mouse_drag_rotate s).is_initial_press = true := by
  simp [mouse_drag_rotate, hp, hr]

/-- C16 as stated (on the first `mouse_drag_rotate` call of a press `diff` is
zero, for every sequence of callbacks and calls) fails for a release and a new
press that arrive between two `mouse_drag_rotate` calls: the release is never
seen, `is_initial_press` stays false, and the first call of the second press
measures from the anchor of the first press, so `diff` is (10, 0) instead of
zero. -/
theorem C16_quick_click_keeps_old_anchor :
    (run_mouse quick_click initial_mouse_state).diff = { x := 10, y := 0 } ∧
    (run_drag_spec quick_click initial_drag_spec).diff = Vec2.zero ∧
    (run_mouse quick_click initial_mouse_state).diff
      ≠ (run_drag_spec quick_click initial_drag_spec).diff ∧
    releases_observed false quick_click = false := by
  have h10 : to_float 10 = 10 :=
    to_float_of_is_float 10 ⟨10, 0, by norm_num, by norm_num⟩
  have hsub : fsub 10 0 = 10 := by rw [fsub]; simpa using h10
  have hc : (run_mouse quick_click initial_mouse_state).diff = { x := 10, y := 0 } := by
    simp [quick_click, run_mouse, mouse_step, mouse_button_callback, mouse_drag_rotate,
      mouse_cursor_callback, initial_mouse_state, current_pos, GLFW_PRESS, GLFW_RELEASE,
      Vec2.sub, Vec2.zero, to_float_zero, fsub_self, h10, hsub]
  have hs : (run_drag_spec quick_click initial_drag_spec).diff = Vec2.zero := by
    simp [quick_click, run_drag_spec, drag_spec_step, initial_drag_spec, GLFW_PRESS,
      GLFW_RELEASE, Vec2.sub, Vec2.zero, to_float_zero, fsub_self, h10]
  refine ⟨hc, hs, ?_, by decide⟩
  rw [hc, hs]
  simp [Vec2.zero]


/-- C16, amended: for every sequence of mouse button and cursor callbacks and
`mouse_drag_rotate` calls from the initial state in which every release is
followed by a `mouse_drag_rotate` call before the next press, `diff` is what
the drag is meant to give: while the button is held, the current cursor
position minus the position sampled by the first `mouse_drag_rotate` call of
that press (zero on that call), and zero after a call in the released state.
In any state, the first call of a press with `is_initial_press` set samples
the anchor and gives `diff` zero, a later call keeps the anchor, and a call in
the released state sets `diff` to zero and `is_initial_press` to true. -/
theorem C16_drag_measures_from_first_call (evs : List MouseEvent)
    (h : releases_observed false evs = true) :
    ((run_mouse evs initial_mouse_state).diff
        = (run_drag_spec evs initial_drag_spec).diff ∧
      (run_mouse evs initial_mouse_state).mouse_pressed
        = (run_drag_spec evs initial_drag_spec).held ∧
      (∀ a, (run_drag_spec evs initial_drag_spec).anchor = some a →
        (run_mouse evs initial_mouse_state).prev_mouse_pos = a ∧
        (run_mouse evs initial_mouse_state).is_initial_press = false)) ∧
    (∀ s : MouseState, s.mouse_pressed = true → s.is_initial_press = true →
      (mouse_drag_rotate s).diff = Vec2.zero ∧
      (mouse_drag_rotate s).prev_mouse_pos = current_pos s ∧
      (mouse_drag_rotate s).is_initial_press = false) ∧
    (∀ s : MouseState, s.mouse_pressed = true → s.is_initial_press = false →
      (mouse_drag_rotate s).diff = (current_pos s).sub s.prev_mouse_pos ∧
      (mouse_drag_rotate s).prev_mouse_pos = s.prev_mouse_pos ∧
      (mouse_drag_rotate s).is_initial_press = false) ∧
    (∀ s : MouseState, s.mouse_pressed = false → s.mouse_released = true →
      (mouse_drag_rotate s).diff = Vec2.zero ∧
      (mouse_drag_rotate s).is_initial_press = true) := by
  obtain ⟨b, _, _, hp, _, hd, _, _, ha, _⟩ :=
    drag_inv_run evs false initial_mouse_state initial_drag_spec drag_inv_initial h
  exact ⟨⟨hd, hp, fun a hsome => ⟨(ha a hsome).2.2, (ha a hsome).2.1⟩⟩,
    mouse_drag_rotate_first, mouse_drag_rotate_later, mouse_drag_rotate_released⟩

/-- Instance of C16 (amended): in `two_drags` the release is seen by a
`mouse_drag_rotate` call before the second press, and the first call of the
second press gives `diff` zero, as the drag is meant to. -/
theorem C16_drag_measures_from_first_call_witness :
    releases_observed false two_drags = true ∧
    (run_mouse two_drags initial_mouse_state).diff
      = (run_drag_spec two_drags initial_drag_spec).diff ∧
    (run_drag_spec two_drags initial_drag_spec).diff = Vec2.zero :=
  ⟨by decide, (C16_drag_measures_from_first_call two_drags (by decide)).1.1, by
    simp [two_drags, run_drag_spec, drag_spec_step, initial_drag_spec, GLFW_PRESS,
      GLFW_RELEASE, Vec2.zero, vec2_sub_self]⟩

end SphereVideo360
